import Mathlib

/-!
# go-gdrive-console-util: a shallow embedding of `go-console-gdrive1-0-0.go`

The program is a sequential command-line client.  Every function of the source
becomes a state-passing function `Proc α := State → Outcome α`:

* `State` holds what the process can change or consume: the files it can read,
  the words waiting on standard input, and the trace of what it did so far;
* `Env` holds what the program does not implement itself: the JSON codec of
  `encoding/json` on `oauth2.Token`, the OAuth2 and Drive endpoints, and the
  answers of the operating system to open-for-write and write requests;
* `Outcome` separates a normal return, `log.Fatalf` (diagnostic, exit status 1)
  and a Go run-time panic.
-/

namespace GDrive

/-! ## Data model -/

/-- Token of `golang.org/x/oauth2`: the four serialized fields.  `Expiry` is a
time instant (Unix seconds). -/
structure Token where
  AccessToken : String
  TokenType : String
  RefreshToken : String
  Expiry : Int
deriving DecidableEq, Repr

/-- Config of `golang.org/x/oauth2`, as produced by `google.ConfigFromJSON`. -/
structure Config where
  ClientID : String
  ClientSecret : String
  AuthURL : String
  TokenURL : String
  Scopes : List String
deriving DecidableEq, Repr

/-- The `*http.Client` returned by `config.Client(ctx, tok)`: it is bound to the
configuration and to the token it was built from. -/
structure Client where
  config : Config
  token : Token
deriving DecidableEq, Repr

/-- The `*drive.Service` returned by `drive.New(client)`. -/
structure Service where
  client : Client
deriving DecidableEq, Repr

/-- The fields of `drive.File` the program writes or reads. -/
structure DriveFile where
  Name : String
  Id : String
  MimeType : String
deriving DecidableEq, Repr

/-- A failed `Write` on an open file: the error, and the part of the data that
reached the file before the failure (in Go a leading part of the data, of the
length `Write` returns next to the error; the model lets it be any text). -/
structure WriteFailure where
  err : String
  written : String
deriving DecidableEq, Repr

/-- Go run-time panics the program can raise. -/
inductive Panic where
  | indexOutOfRange (index length : Nat)
deriving DecidableEq, Repr

/-- What the process did, in order: entries into the functions of the source
(with their arguments) and the calls it made to the outside world. -/
inductive Event where
  | getClient
  | getTokenFromWeb
  | tokenFromFile (file : String)
  | saveToken (path : String) (token : Token)
  | initCloud
  | fileGet (fileName id : String)
  | fileUpdateCloud (fileName id : String)
  | fileCreateCloud (fileName : String)
  | filesList
  | stdout (text : String)
  | osOpen (path : String)
  | osOpenFile (path : String)
  | osCreate (path : String)
  | readFile (path : String)
  | scan
  | exchange (code : String)
  | newClient (token : Token)
  | remoteGet (id : String)
  | remoteUpdate (id : String) (meta : DriveFile)
  | remoteCreate (meta : DriveFile)
  | remoteList
deriving DecidableEq, Repr

/-- Mutable part of the world. `files` maps a path to the content of a file the
process can open for reading (first entry wins); `stdin` is the list of
space-separated words not yet consumed by `fmt.Scan`. -/
structure State where
  files : List (String × String)
  stdin : List String
  trace : List Event
deriving DecidableEq, Repr

/-- Everything the program calls but does not define. -/
structure Env where
  /-- `json.NewDecoder(f).Decode(tok)` on the content of the file. -/
  decodeToken : String → Except String Token
  /-- The marshalling half of `json.NewEncoder(f).Encode(token)`. -/
  encodeToken : Token → Except String String
  /-- `google.ConfigFromJSON(b, drive.DriveScope)`. -/
  configFromJSON : String → Except String Config
  /-- `config.AuthCodeURL("state-token", oauth2.AccessTypeOffline)`. -/
  authCodeURL : Config → String
  /-- `config.Exchange(ctx, authCode)`. -/
  exchange : Config → String → Except String Token
  /-- Error of `drive.New(client)`, if any. -/
  driveNewErr : Client → Option String
  /-- Error of opening a path with `O_RDWR|O_CREATE|O_TRUNC`, if any. -/
  openFileErr : String → Option String
  /-- Failure of writing a text to the open file at a path, if any. -/
  writeErr : String → String → Option WriteFailure
  /-- `srv.Files.Get(id).Download()`: the response body. -/
  download : Service → String → Except String String
  /-- `srv.Files.Update(id, f).Media(file).Do()`. -/
  update : Service → String → DriveFile → String → Except String DriveFile
  /-- `srv.Files.Create(f).Media(file).Do()`. -/
  create : Service → DriveFile → String → Except String DriveFile
  /-- `srv.Files.List().Do()`: the `Files` of the response. -/
  list : Service → Except String (List DriveFile)

/-- How a run of a piece of the program ends. -/
inductive Outcome (α : Type) where
  | ok (val : α) (s : State)
  | fatal (msg : String) (s : State)
  | panic (p : Panic) (s : State)
deriving DecidableEq, Repr

/-- A piece of the program: a function of the state of the world. -/
def Proc (α : Type) : Type := State → Outcome α

/-- Sequencing: a fatal exit or a panic ends the process at once. -/
def Proc.bind {α β : Type} (x : Proc α) (f : α → Proc β) : Proc β := fun s =>
  match x s with
  | .ok a s1 => f a s1
  | .fatal m s1 => .fatal m s1
  | .panic p s1 => .panic p s1

instance : Monad Proc where
  pure a := fun s => .ok a s
  bind := Proc.bind

/-- The state in which a run ended. -/
def Outcome.state {α : Type} : Outcome α → State
  | .ok _ s => s
  | .fatal _ s => s
  | .panic _ s => s

/-- The value a run returned, when it returned. -/
def Outcome.value {α : Type} : Outcome α → Option α
  | .ok a _ => some a
  | .fatal _ _ => none
  | .panic _ _ => none

/-- Whether a run returned normally. -/
def Outcome.returned {α : Type} (o : Outcome α) : Bool := o.value.isSome

/-! ## Primitive effects -/

/-- Record an event at the end of the trace. -/
def emit (e : Event) : Proc Unit := fun s =>
  .ok () { s with trace := s.trace ++ [e] }

/-- `log.Fatalf`: the formatted diagnostic, then `os.Exit(1)`. -/
def logFatalf {α : Type} (msg : String) : Proc α := fun s => .fatal msg s

/-- `fmt.Printf` and `fmt.Println`, with the text already formatted. -/
def printf (text : String) : Proc Unit := emit (.stdout text)

/-- `os.Open(path)` followed by reading the file: its content, or the error. -/
def osOpen (path : String) : Proc (Except String String) := fun s =>
  let s1 := { s with trace := s.trace ++ [.osOpen path] }
  match s.files.lookup path with
  | none => .ok (.error ("open " ++ path ++ ": no such file or directory")) s1
  | some content => .ok (.ok content) s1

/-- `ioutil.ReadFile(path)`. -/
def readFile (path : String) : Proc (Except String String) := fun s =>
  let s1 := { s with trace := s.trace ++ [.readFile path] }
  match s.files.lookup path with
  | none => .ok (.error ("open " ++ path ++ ": no such file or directory")) s1
  | some content => .ok (.ok content) s1

/-- `os.OpenFile(path, os.O_RDWR|os.O_CREATE|os.O_TRUNC, 0600)`: on success the
file exists and is empty. -/
def osOpenFile (env : Env) (path : String) : Proc (Except String Unit) := fun s =>
  let s1 := { s with trace := s.trace ++ [.osOpenFile path] }
  match env.openFileErr path with
  | some err => .ok (.error err) s1
  | none => .ok (.ok ()) { s1 with files := (path, "") :: s1.files }

/-- `os.Create(path)`, which is `OpenFile` with the same flags and mode 0666. -/
def osCreate (env : Env) (path : String) : Proc (Except String Unit) := fun s =>
  let s1 := { s with trace := s.trace ++ [.osCreate path] }
  match env.openFileErr path with
  | some err => .ok (.error err) s1
  | none => .ok (.ok ()) { s1 with files := (path, "") :: s1.files }

/-- Write `data` at the end of the open file at `path`.  A failed write
returns its error after storing the part of the data it reports. -/
def fileWrite (env : Env) (path data : String) : Proc (Except String Unit) := fun s =>
  match env.writeErr path data with
  | some failure =>
    .ok (.error failure.err)
      { s with files := (path, (s.files.lookup path).getD "" ++ failure.written) :: s.files }
  | none =>
    .ok (.ok ()) { s with files := (path, (s.files.lookup path).getD "" ++ data) :: s.files }

/-- `json.NewEncoder(f).Encode(token)`: marshal, then one write of the result. -/
def jsonEncode (env : Env) (path : String) (token : Token) : Proc (Except String Unit) :=
  match env.encodeToken token with
  | .error err => pure (.error err)
  | .ok data => fileWrite env path data

/-- `fmt.Scan(&authCode)`: the next word of standard input. -/
def fmtScan : Proc (Except String String) := fun s =>
  let s1 := { s with trace := s.trace ++ [.scan] }
  match s.stdin with
  | [] => .ok (.error "EOF") s1
  | w :: rest => .ok (.ok w) { s1 with stdin := rest }

/-- Go's `len` of a string: its number of bytes. -/
def len (s : String) : Nat := s.utf8ByteSize

/-- `filepath.Base` (Unix): strip trailing slashes, keep what follows the last
slash; `.` for the empty path and `/` for a path of slashes only. -/
def Base (path : String) : String :=
  if path = "" then "."
  else
    let stripped := (path.data.reverse.dropWhile (· = '/'))
    let last := (stripped.takeWhile (· ≠ '/')).reverse
    if last = [] then "/" else String.mk last

/-! ## The program -/

/-- The package variable `googleSecretPath`. -/
def googleSecretPath : String := "../gsecret/"

/-- Retrieves a token from a local file (source lines 56-65).  The returned
pair `(tok, err)` is read by the caller only through `err != nil`. -/
def tokenFromFile (env : Env) (file : String) : Proc (Except String Token) := do
  emit (.tokenFromFile file)
  match ← osOpen file with
  | .error err => pure (.error err)
  | .ok content => pure (env.decodeToken content)

/-- Request a token from the web, then returns the retrieved token (source
lines 38-53). -/
def getTokenFromWeb (env : Env) (config : Config) : Proc Token := do
  emit .getTokenFromWeb
  let authURL := env.authCodeURL config
  printf ("Go to the following link in your browser then type the " ++
    "authorization code: \n" ++ authURL ++ "\n")
  match ← fmtScan with
  | .error err => logFatalf ("Unable to read authorization code " ++ err)
  | .ok authCode =>
    emit (.exchange authCode)
    match env.exchange config authCode with
    | .error err => logFatalf ("Unable to retrieve token from web " ++ err)
    | .ok tok => pure tok

/-- Saves a token to a file path (source lines 68-76).  The result of `Encode`
is discarded, as in the source. -/
def saveToken (env : Env) (path : String) (token : Token) : Proc Unit := do
  emit (.saveToken path token)
  printf ("Saving credential file to: " ++ path ++ "\n")
  match ← osOpenFile env path with
  | .error err => logFatalf ("Unable to cache oauth token: " ++ err)
  | .ok () =>
    let _ ← jsonEncode env path token
    pure ()

/-- The local variable `tokFile` of `getClient`. -/
def tokFile : String := googleSecretPath ++ "token.json"

/-- Retrieve a token, saves the token, then returns the generated client
(source lines 24-35). -/
def getClient (env : Env) (config : Config) : Proc Client := do
  emit .getClient
  let tok ← (do
    match ← tokenFromFile env tokFile with
    | .error _ =>
      let tok ← getTokenFromWeb env config
      saveToken env tokFile tok
      pure tok
    | .ok tok => pure tok)
  emit (.newClient tok)
  pure { config := config, token := tok }

/-- Source lines 108-132. -/
def initCloud (env : Env) : Proc Service := do
  emit .initCloud
  match ← readFile (googleSecretPath ++ "credentials.json") with
  | .error err => logFatalf ("Unable to read client secret file: " ++ err)
  | .ok b =>
    match env.configFromJSON b with
    | .error err => logFatalf ("Unable to parse client secret file to config: " ++ err)
    | .ok config =>
      let client ← getClient env config
      match env.driveNewErr client with
      | some err => logFatalf ("Unable to retrieve Drive client: " ++ err)
      | none => pure { client := client }

/-- Source lines 134-167. -/
def fileGet (env : Env) (fileName id : String) : Proc Unit := do
  emit (.fileGet fileName id)
  if len fileName < 1 then
    logFatalf ("Unable to retrieve Drive client: " ++ "File name is empty")
  else if len id < 1 then
    logFatalf ("Unable to retrieve Drive client: " ++ "File Id is empty")
  else
    let srv ← initCloud env
    emit (.remoteGet id)
    match env.download srv id with
    | .error err => logFatalf ("Error: " ++ err)
    | .ok body =>
      match ← osCreate env fileName with
      | .error err => logFatalf ("Error: " ++ err)
      | .ok () =>
        match ← fileWrite env fileName body with
        | .error err => logFatalf ("Error: " ++ err)
        | .ok () => printf "Download is ok\n"

/-- Source lines 169-198. -/
def fileUpdateCloud (env : Env) (fileName id : String) : Proc Unit := do
  emit (.fileUpdateCloud fileName id)
  if len fileName < 1 then
    logFatalf ("Unable to retrieve Drive client: " ++ "File name is empty")
  else if len id < 1 then
    logFatalf ("Unable to retrieve Drive client: " ++ "File Id is empty")
  else
    let srv ← initCloud env
    match ← osOpen fileName with
    | .error err => logFatalf ("Error: " ++ err)
    | .ok file =>
      let f : DriveFile := { Name := Base fileName, Id := "", MimeType := "" }
      emit (.remoteUpdate id f)
      match env.update srv id f file with
      | .error err => logFatalf ("Error: " ++ err)
      | .ok res => printf (res.Name ++ ", " ++ res.Id ++ ", " ++ res.MimeType ++ "\n")

/-- Source lines 200-222. -/
def fileCreateCloud (env : Env) (fileName : String) : Proc Unit := do
  emit (.fileCreateCloud fileName)
  if len fileName < 1 then
    logFatalf ("Unable to retrieve Drive client: " ++ "File name is empty")
  else
    let srv ← initCloud env
    match ← osOpen fileName with
    | .error err => logFatalf ("Error: " ++ err)
    | .ok file =>
      let f : DriveFile := { Name := Base fileName, Id := "", MimeType := "" }
      emit (.remoteCreate f)
      match env.create srv f file with
      | .error err => logFatalf ("Error: " ++ err)
      | .ok res => printf (res.Name ++ ", " ++ res.Id ++ ", " ++ res.MimeType ++ "\n")

/-- The line `filesList` prints for one file of the response. -/
def fileLine (i : DriveFile) : String :=
  "  name -> " ++ i.Name ++ " id -> " ++ i.Id ++ " \n"

/-- The `for _, i := range r.Files` loop of `filesList`. -/
def printFiles : List DriveFile → Proc Unit
  | [] => pure ()
  | i :: rest => do
    printf (fileLine i)
    printFiles rest

/-- Source lines 224-242. -/
def filesList (env : Env) : Proc Unit := do
  emit .filesList
  let srv ← initCloud env
  emit .remoteList
  match env.list srv with
  | .error err => logFatalf ("Unable to retrieve files: " ++ err)
  | .ok files =>
    printf "Files:\n"
    if files.length = 0 then
      printf "No files found.\n"
    else
      printFiles files

/-- The variables `command, file, id` of `main`. -/
structure Args where
  command : String
  file : String
  id : String
deriving DecidableEq, Repr

/-- The indexing expression `params[i]`: Go panics when `i` is out of range. -/
def index (params : List String) (i : Nat) : Except Panic String :=
  match params[i]? with
  | some v => .ok v
  | none => .error (.indexOutOfRange i params.length)

/-- One iteration of the loop of `main` (source lines 84-91). -/
def scanStep (params : List String) (a : Args) (inx : Nat) : Except Panic Args := do
  let p ← index params inx
  if p = "-id" then
    let v ← index params (inx + 1)
    pure { a with id := v }
  else if p = "-f" then
    let v ← index params (inx + 1)
    pure { a with file := v }
  else if p = "-c" then
    let v ← index params (inx + 1)
    pure { a with command := v }
  else
    pure a

/-- The loop `for inx := range params` of `main` (source lines 79-92). -/
def scanArgs (params : List String) : Except Panic Args :=
  (List.range params.length).foldlM (scanStep params)
    { command := "", file := "", id := "" }

/-- The `switch command` of `main` (source lines 94-105). -/
def dispatch (env : Env) (command file id : String) : Proc Unit :=
  if command = "fileGet" then fileGet env file id
  else if command = "fileUpdate" then fileUpdateCloud env file id
  else if command = "fileCreate" then fileCreateCloud env file
  else if command = "fileList" then filesList env
  else logFatalf ("Command " ++ command ++ " not allowed \n")

/-- The function `main`, applied to `os.Args[1:]` (source lines 78-107). -/
def main (env : Env) (params : List String) : Proc Unit := fun s =>
  match scanArgs params with
  | .error p => .panic p s
  | .ok a => dispatch env a.command a.file a.id s

/-! ## Reading a final state -/

/-- The events a run added to the trace of the state it started from. -/
def newEvents {α : Type} (s : State) (o : Outcome α) : List Event :=
  o.state.trace.drop s.trace.length

/-- Every event a piece of the program adds to the trace satisfies `Q`. -/
def Emits {α : Type} (Q : Event → Prop) (x : Proc α) : Prop :=
  ∀ s, ∃ evs, (x s).state.trace = s.trace ++ evs ∧ ∀ e ∈ evs, Q e

/-- The texts written to standard output, in order. -/
def printed : List Event → List String
  | [] => []
  | .stdout t :: es => t :: printed es
  | _ :: es => printed es

/-- Whether an event is the entry into one of the four file operations. -/
def Event.isOperation : Event → Bool
  | .fileGet _ _ => true
  | .fileUpdateCloud _ _ => true
  | .fileCreateCloud _ => true
  | .filesList => true
  | _ => false

/-- Whether an event belongs to the interactive authorization flow. -/
def Event.isAuthFlow : Event → Bool
  | .getTokenFromWeb => true
  | .scan => true
  | .exchange _ => true
  | _ => false

/-- Whether an event is an entry into `saveToken`. -/
def Event.isSaveToken : Event → Bool
  | .saveToken _ _ => true
  | _ => false

/-- Whether an event is the construction of a client. -/
def Event.isNewClient : Event → Bool
  | .newClient _ => true
  | _ => false

/-- Whether an event is an entry into `initCloud`, a read of the secrets file,
a load or request of a token, a remote call or an open of a local file. -/
def Event.isCloudWork : Event → Bool
  | .initCloud => true
  | .readFile _ => true
  | .getClient => true
  | .tokenFromFile _ => true
  | .getTokenFromWeb => true
  | .scan => true
  | .exchange _ => true
  | .saveToken _ _ => true
  | .newClient _ => true
  | .remoteGet _ => true
  | .remoteUpdate _ _ => true
  | .remoteCreate _ => true
  | .remoteList => true
  | .osOpen _ => true
  | .osOpenFile _ => true
  | .osCreate _ => true
  | _ => false

/-- Whether an event is a create call on the remote. -/
def Event.isRemoteCreate : Event → Bool
  | .remoteCreate _ => true
  | _ => false

/-- The argument scan restated by recursion on the list: `total` is the length
of the whole argument list, reported by the panic. -/
def scanList (total : Nat) : List String → Args → Except Panic Args
  | [], a => .ok a
  | p :: rest, a =>
    if p = "-id" then
      match rest with
      | [] => .error (.indexOutOfRange total total)
      | v :: _ => scanList total rest { a with id := v }
    else if p = "-f" then
      match rest with
      | [] => .error (.indexOutOfRange total total)
      | v :: _ => scanList total rest { a with file := v }
    else if p = "-c" then
      match rest with
      | [] => .error (.indexOutOfRange total total)
      | v :: _ => scanList total rest { a with command := v }
    else scanList total rest a

/-! ## Sample worlds -/

/-- A configuration as `google.ConfigFromJSON` returns it. -/
def sampleConfig : Config :=
  { ClientID := "1234.apps.googleusercontent.com"
    ClientSecret := "secret"
    AuthURL := "https://accounts.google.com/o/oauth2/auth"
    TokenURL := "https://oauth2.googleapis.com/token"
    Scopes := ["https://www.googleapis.com/auth/drive"] }

/-- A token expiring on 2026-11-04 at 10:00:00 UTC. -/
def freshToken : Token :=
  { AccessToken := "ya29.fresh", TokenType := "Bearer", RefreshToken := "1//refresh",
    Expiry := 1793786400 }

/-- A token whose access token expired on 2020-01-01 at 00:00:00 UTC. -/
def staleToken : Token :=
  { AccessToken := "ya29.stale", TokenType := "Bearer", RefreshToken := "1//refresh",
    Expiry := 1577836800 }

/-- The text `encoding/json` writes for `freshToken`. -/
def freshJSON : String :=
  "\x7b\"access_token\":\"ya29.fresh\",\"token_type\":\"Bearer\"," ++
  "\"refresh_token\":\"1//refresh\",\"expiry\":\"2026-11-04T10:00:00Z\"\x7d\n"

/-- The text `encoding/json` writes for `staleToken`. -/
def staleJSON : String :=
  "\x7b\"access_token\":\"ya29.stale\",\"token_type\":\"Bearer\"," ++
  "\"refresh_token\":\"1//refresh\",\"expiry\":\"2020-01-01T00:00:00Z\"\x7d\n"

/-- A cache file cut in the middle of a key. -/
def truncatedJSON : String := "\x7b\"access_token\":\"ya29.stale\",\"token_ty"

/-- A sample world in which every call succeeds.  Its codec is a table: it
knows the JSON text of `freshToken` and of `staleToken`, and reports the end of
the input on the empty and on the cut text.  Its remote echoes the metadata it
is sent and lists no file. -/
def sampleEnv : Env where
  decodeToken := fun content =>
    if content = freshJSON then .ok freshToken
    else if content = staleJSON then .ok staleToken
    else if content = "" then .error "EOF"
    else .error "unexpected EOF"
  encodeToken := fun token =>
    if token = freshToken then .ok freshJSON
    else if token = staleToken then .ok staleJSON
    else .error "json: token outside the table"
  configFromJSON := fun _ => .ok sampleConfig
  authCodeURL := fun config => config.AuthURL ++ "?access_type=offline&state=state-token"
  exchange := fun _ code =>
    if code = "4/0AX4XfWh" then .ok freshToken else .error "oauth2: cannot fetch token"
  driveNewErr := fun _ => none
  openFileErr := fun _ => none
  writeErr := fun _ _ => none
  download := fun _ _ => .ok "a,b\n1,2\n"
  update := fun _ id f _ => .ok { Name := f.Name, Id := id, MimeType := "text/csv" }
  create := fun _ f _ => .ok { Name := f.Name, Id := "1a2B3c", MimeType := "text/csv" }
  list := fun _ => .ok []

/-- The sample world with a secrets directory that is not writable. -/
def readOnlyEnv : Env :=
  { sampleEnv with openFileErr := fun path => some ("open " ++ path ++ ": permission denied") }

/-- The sample world with a full disk: files open, writes fail and store
nothing. -/
def fullDiskEnv : Env :=
  { sampleEnv with
    writeErr := fun path _ =>
      some { err := "write " ++ path ++ ": no space left on device", written := "" } }

/-- The sample world with a disk that fails in the middle of a write: the
first 24 characters of the data are stored. -/
def failingDiskEnv : Env :=
  { sampleEnv with
    writeErr := fun path data =>
      some { err := "write " ++ path ++ ": input/output error",
             written := String.mk (data.data.take 24) } }

/-- The sample world with a remote that stores the file under another name
than the one it is sent. -/
def renamingEnv : Env :=
  { sampleEnv with
    create := fun _ _ _ => .ok { Name := "report (1).csv", Id := "1a2B3c", MimeType := "text/csv" } }

/-- The sample world with two files on the remote. -/
def twoFilesEnv : Env :=
  { sampleEnv with
    list := fun _ => .ok [{ Name := "report.csv", Id := "1a2B3c", MimeType := "text/csv" },
      { Name := "notes.txt", Id := "4d5E6f", MimeType := "text/plain" }] }

/-- First run: secrets present, no token cache, the operator types the code. -/
def firstRun : State :=
  { files := [("../gsecret/credentials.json", "credentials"), ("report.csv", "a,b\n1,2\n"),
      ("dir/report.csv", "a,b\n3,4\n")]
    stdin := ["4/0AX4XfWh"]
    trace := [] }

/-- Later run: the cache holds the stale token. -/
def laterRun : State :=
  { files := [("../gsecret/token.json", staleJSON),
      ("../gsecret/credentials.json", "credentials"), ("report.csv", "a,b\n1,2\n"),
      ("dir/report.csv", "a,b\n3,4\n")]
    stdin := []
    trace := [] }

/-- Run with a cache file that was cut short. -/
def corruptRun : State :=
  { files := [("../gsecret/token.json", truncatedJSON),
      ("../gsecret/credentials.json", "credentials")]
    stdin := ["4/0AX4XfWh"]
    trace := [] }

/-! ## The argument scan, by recursion on the list -/

theorem getElem?_append_here (pre : List String) (p : String) (rest : List String) :
    (pre ++ p :: rest)[pre.length]? = some p := by
  rw [List.getElem?_append_right (le_refl _)]; simp

theorem index_append_here (pre : List String) (p : String) (rest : List String) :
    index (pre ++ p :: rest) pre.length = .ok p := by
  simp only [index, getElem?_append_here]

theorem index_append_next_nil (pre : List String) (p : String) :
    index (pre ++ [p]) (pre.length + 1)
      = .error (.indexOutOfRange (pre ++ [p]).length (pre ++ [p]).length) := by
  have h : (pre ++ [p])[pre.length + 1]? = none := by
    apply List.getElem?_eq_none; simp
  simp only [index, h]; simp

theorem index_append_next_cons (pre : List String) (p v : String) (rest : List String) :
    index (pre ++ p :: v :: rest) (pre.length + 1) = .ok v := by
  have h : pre ++ p :: v :: rest = (pre ++ [p]) ++ v :: rest := by simp
  rw [h]
  have h2 : pre.length + 1 = (pre ++ [p]).length := by simp
  rw [h2]
  exact index_append_here _ _ _

/-- The first iteration of the scan on `p :: rest`, as a function of the accumulator. -/
theorem scanList_cons (total : Nat) (p : String) (rest : List String) (a : Args) :
    scanList total (p :: rest) a =
      (match rest with
        | [] => if p = "-id" ∨ p = "-f" ∨ p = "-c" then
                  .error (.indexOutOfRange total total) else .ok a
        | v :: _ =>
          scanList total rest
            (if p = "-id" then { a with id := v }
             else if p = "-f" then { a with file := v }
             else if p = "-c" then { a with command := v } else a)) := by
  cases rest with
  | nil => rw [scanList]; split_ifs <;> simp_all [scanList]
  | cons v rest2 => rw [scanList]; split_ifs <;> rfl

theorem scanStep_last (pre : List String) (p : String) (a : Args) :
    scanStep (pre ++ [p]) a pre.length =
      if p = "-id" ∨ p = "-f" ∨ p = "-c" then
        .error (.indexOutOfRange (pre ++ [p]).length (pre ++ [p]).length) else .ok a := by
  simp only [scanStep, index_append_here, index_append_next_nil]
  by_cases h1 : p = "-id" <;> by_cases h2 : p = "-f" <;> by_cases h3 : p = "-c" <;>
    simp [h1, h2, h3, bind, Except.bind, pure, Except.pure]

theorem scanStep_inner (pre : List String) (p v : String) (rest : List String) (a : Args) :
    scanStep (pre ++ p :: v :: rest) a pre.length =
      .ok (if p = "-id" then { a with id := v }
             else if p = "-f" then { a with file := v }
             else if p = "-c" then { a with command := v } else a) := by
  simp only [scanStep, index_append_here, index_append_next_cons]
  by_cases h1 : p = "-id" <;> by_cases h2 : p = "-f" <;> by_cases h3 : p = "-c" <;>
    simp [h1, h2, h3, bind, Except.bind, pure, Except.pure]

theorem foldlM_scanStep_eq (suf : List String) :
    ∀ (pre : List String) (a : Args),
      (List.range' pre.length suf.length).foldlM (scanStep (pre ++ suf)) a
        = scanList (pre ++ suf).length suf a := by
  induction suf with
  | nil => intro pre a; simp [scanList]; rfl
  | cons p rest ih =>
    intro pre a
    have hrec : ∀ b : Args,
        (List.range' (pre.length + 1) rest.length).foldlM (scanStep (pre ++ p :: rest)) b
          = scanList (pre ++ p :: rest).length rest b := by
      intro b
      have := ih (pre ++ [p]) b
      simpa using this
    rw [scanList_cons, List.length_cons, List.range'_succ, List.foldlM_cons]
    cases rest with
    | nil =>
      rw [scanStep_last]
      by_cases h : p = "-id" ∨ p = "-f" ∨ p = "-c"
      · simp only [h, if_true]; rfl
      · simp only [h, if_false]; rfl
    | cons v rest2 =>
      rw [scanStep_inner]
      exact hrec _

theorem scanArgs_eq_scanList (params : List String) :
    scanArgs params = scanList params.length params { command := "", file := "", id := "" } := by
  have := foldlM_scanStep_eq params [] { command := "", file := "", id := "" }
  simpa [scanArgs, List.range_eq_range'] using this

theorem scanList_skip (total : Nat) (p : String) (rest : List String) (a : Args)
    (h1 : p ≠ "-id") (h2 : p ≠ "-f") (h3 : p ≠ "-c") :
    scanList total (p :: rest) a = scanList total rest a := by
  rw [scanList_cons]
  cases rest with
  | nil => simp [h1, h2, h3, scanList]
  | cons v rest2 => simp only [if_neg h1, if_neg h2, if_neg h3]

theorem scanList_cons_cons (total : Nat) (p v : String) (rest : List String) (a : Args) :
    scanList total (p :: v :: rest) a =
      scanList total (v :: rest)
        (if p = "-id" then { a with id := v }
         else if p = "-f" then { a with file := v }
         else if p = "-c" then { a with command := v } else a) := by
  rw [scanList_cons]

theorem scanList_toOption_total (l : List String) :
    ∀ (n m : Nat) (a : Args), (scanList n l a).toOption = (scanList m l a).toOption := by
  induction l with
  | nil => intro n m a; simp [scanList]
  | cons p rest ih =>
    intro n m a
    rw [scanList_cons, scanList_cons]
    cases rest with
    | nil => by_cases h : p = "-id" ∨ p = "-f" ∨ p = "-c" <;> simp [h, Except.toOption]
    | cons v rest2 => exact ih n m _

theorem scanList_insert (xs : List String) :
    ∀ (ys : List String) (t : String) (a : Args) (n m : Nat),
      t ≠ "-id" → t ≠ "-f" → t ≠ "-c" →
      (∀ x, xs.getLast? = some x → x ≠ "-id" ∧ x ≠ "-f" ∧ x ≠ "-c") →
      (scanList n (xs ++ t :: ys) a).toOption = (scanList m (xs ++ ys) a).toOption := by
  induction xs with
  | nil =>
    intro ys t a n m h1 h2 h3 _
    rw [List.nil_append, List.nil_append, scanList_skip n t ys a h1 h2 h3]
    exact scanList_toOption_total ys n m a
  | cons x xs1 ih =>
    intro ys t a n m h1 h2 h3 hlast
    cases xs1 with
    | nil =>
      obtain ⟨g1, g2, g3⟩ := hlast x (by simp)
      rw [List.cons_append, List.cons_append, scanList_skip n x _ a g1 g2 g3,
        scanList_skip m x _ a g1 g2 g3]
      exact ih ys t a n m h1 h2 h3 (by simp)
    | cons v xs2 =>
      have hl : ∀ y, (v :: xs2).getLast? = some y → y ≠ "-id" ∧ y ≠ "-f" ∧ y ≠ "-c" := by
        intro y hy
        apply hlast y
        rw [List.getLast?_cons_cons]; exact hy
      rw [List.cons_append, List.cons_append, List.cons_append, List.cons_append,
        scanList_cons_cons, scanList_cons_cons]
      have := ih ys t (if x = "-id" then { a with id := v }
         else if x = "-f" then { a with file := v }
         else if x = "-c" then { a with command := v } else a) n m h1 h2 h3 hl
      simpa using this

theorem scanList_flag_last (xs : List String) :
    ∀ (f : String) (a : Args) (n : Nat), (f = "-id" ∨ f = "-f" ∨ f = "-c") →
      scanList n (xs ++ [f]) a = .error (.indexOutOfRange n n) := by
  induction xs with
  | nil =>
    intro f a n hf
    rw [List.nil_append, scanList_cons]
    simp [hf]
  | cons x xs1 ih =>
    intro f a n hf
    cases xs1 with
    | nil =>
      rw [List.cons_append, List.nil_append, scanList_cons_cons]
      exact ih f _ n hf
    | cons v xs2 =>
      rw [List.cons_append, List.cons_append, scanList_cons_cons]
      exact ih f _ n hf

/-! ## The token cache and the authorization flow -/

theorem bind_apply {α β : Type} (x : Proc α) (f : α → Proc β) (s : State) :
    (x >>= f) s = Proc.bind x f s := rfl

theorem pure_apply {α : Type} (a : α) (s : State) : (pure a : Proc α) s = .ok a s := rfl

theorem tokenFromFile_eq (env : Env) (file : String) (s : State) :
    tokenFromFile env file s =
      .ok (match s.files.lookup file with
            | none => .error ("open " ++ file ++ ": no such file or directory")
            | some content => env.decodeToken content)
          { s with trace := s.trace ++ [.tokenFromFile file, .osOpen file] } := by
  simp only [tokenFromFile, bind_apply, Proc.bind, emit, osOpen]
  cases h : s.files.lookup file <;> simp [pure_apply]

theorem tokenFromFile_miss (env : Env) (file : String) (s : State)
    (hmiss : s.files.lookup file = none ∨
      ∃ content e, s.files.lookup file = some content ∧ env.decodeToken content = .error e) :
    ∃ e, tokenFromFile env file s = .ok (.error e)
      { s with trace := s.trace ++ [.tokenFromFile file, .osOpen file] } := by
  rw [tokenFromFile_eq]
  rcases hmiss with h | ⟨content, e, h, hd⟩
  · exact ⟨_, by rw [h]⟩
  · exact ⟨e, by rw [h]; simp only [hd]⟩

theorem getTokenFromWeb_eq (env : Env) (config : Config) (s : State) :
    getTokenFromWeb env config s =
      match s.stdin with
      | [] => .fatal ("Unable to read authorization code " ++ "EOF")
          { s with trace := s.trace ++ [.getTokenFromWeb,
              .stdout ("Go to the following link in your browser then type the " ++
                "authorization code: \n" ++ env.authCodeURL config ++ "\n"), .scan] }
      | code :: rest =>
        match env.exchange config code with
        | .error err => .fatal ("Unable to retrieve token from web " ++ err)
            { s with stdin := rest, trace := s.trace ++ [.getTokenFromWeb,
              .stdout ("Go to the following link in your browser then type the " ++
                "authorization code: \n" ++ env.authCodeURL config ++ "\n"), .scan,
              .exchange code] }
        | .ok tok => .ok tok
            { s with stdin := rest, trace := s.trace ++ [.getTokenFromWeb,
              .stdout ("Go to the following link in your browser then type the " ++
                "authorization code: \n" ++ env.authCodeURL config ++ "\n"), .scan,
              .exchange code] } := by
  simp only [getTokenFromWeb, bind_apply, Proc.bind, emit, printf, fmtScan]
  cases h : s.stdin with
  | nil => simp [logFatalf]
  | cons code rest =>
    simp only [bind_apply, Proc.bind, emit]
    cases h2 : env.exchange config code <;> simp [logFatalf, pure_apply]

/-- The whole run of `saveToken`: fatal when the file cannot be opened; otherwise
the file is truncated and holds the marshalled token only if `Encode` succeeded. -/
theorem saveToken_eq (env : Env) (path : String) (token : Token) (s : State) :
    saveToken env path token s =
      match env.openFileErr path with
      | some err => .fatal ("Unable to cache oauth token: " ++ err)
          { s with trace := s.trace ++ [.saveToken path token,
              .stdout ("Saving credential file to: " ++ path ++ "\n"), .osOpenFile path] }
      | none => .ok ()
          { s with
            files :=
              (match env.encodeToken token with
                | .error _ => []
                | .ok data =>
                  [(path, match env.writeErr path data with
                          | none => data
                          | some failure => failure.written)]) ++ (path, "") :: s.files
            trace := s.trace ++ [.saveToken path token,
              .stdout ("Saving credential file to: " ++ path ++ "\n"), .osOpenFile path] } := by
  simp only [saveToken, bind_apply, Proc.bind, emit, printf, osOpenFile]
  cases h : env.openFileErr path with
  | some err => simp [logFatalf]
  | none =>
    simp only [jsonEncode]
    cases h2 : env.encodeToken token with
    | error e => simp [pure_apply, bind_apply, Proc.bind]
    | ok data =>
      cases h3 : env.writeErr path data <;>
        simp [pure_apply, bind_apply, Proc.bind, fileWrite, h3, List.lookup]

theorem newEvents_of_trace {α : Type} (s : State) (o : Outcome α) (evs : List Event)
    (h : o.state.trace = s.trace ++ evs) : newEvents s o = evs := by
  simp [newEvents, h]

/-- The whole run of `getClient` when the cache read fails: the flow, then
`saveToken`, then the client. -/
theorem getClient_miss_eq (env : Env) (config : Config) (s : State)
    (hmiss : s.files.lookup tokFile = none ∨
      ∃ content e, s.files.lookup tokFile = some content ∧ env.decodeToken content = .error e) :
    getClient env config s =
      match s.stdin with
      | [] => .fatal ("Unable to read authorization code " ++ "EOF")
          { s with trace := s.trace ++ [.getClient, .tokenFromFile tokFile, .osOpen tokFile,
              .getTokenFromWeb,
              .stdout ("Go to the following link in your browser then type the " ++
                "authorization code: \n" ++ env.authCodeURL config ++ "\n"), .scan] }
      | code :: rest =>
        match env.exchange config code with
        | .error err => .fatal ("Unable to retrieve token from web " ++ err)
            { s with stdin := rest, trace := s.trace ++ [.getClient, .tokenFromFile tokFile,
              .osOpen tokFile, .getTokenFromWeb,
              .stdout ("Go to the following link in your browser then type the " ++
                "authorization code: \n" ++ env.authCodeURL config ++ "\n"), .scan,
              .exchange code] }
        | .ok tok =>
          match env.openFileErr tokFile with
          | some err => .fatal ("Unable to cache oauth token: " ++ err)
              { s with stdin := rest, trace := s.trace ++ [.getClient, .tokenFromFile tokFile,
                .osOpen tokFile, .getTokenFromWeb,
                .stdout ("Go to the following link in your browser then type the " ++
                  "authorization code: \n" ++ env.authCodeURL config ++ "\n"), .scan,
                .exchange code, .saveToken tokFile tok,
                .stdout ("Saving credential file to: " ++ tokFile ++ "\n"),
                .osOpenFile tokFile] }
          | none => .ok { config := config, token := tok }
              { files :=
                  (match env.encodeToken tok with
                    | .error _ => []
                    | .ok data =>
                      [(tokFile, match env.writeErr tokFile data with
                                 | none => data
                                 | some failure => failure.written)]) ++ (tokFile, "") :: s.files
                stdin := rest
                trace := s.trace ++ [.getClient, .tokenFromFile tokFile,
                  .osOpen tokFile, .getTokenFromWeb,
                  .stdout ("Go to the following link in your browser then type the " ++
                    "authorization code: \n" ++ env.authCodeURL config ++ "\n"), .scan,
                  .exchange code, .saveToken tokFile tok,
                  .stdout ("Saving credential file to: " ++ tokFile ++ "\n"),
                  .osOpenFile tokFile, .newClient tok] } := by
  obtain ⟨e, he⟩ := tokenFromFile_miss env tokFile
    { s with trace := s.trace ++ [.getClient] } hmiss
  simp only [getClient, bind_apply, Proc.bind, emit, he, getTokenFromWeb_eq, saveToken_eq]
  cases h1 : s.stdin with
  | nil => simp
  | cons code rest =>
    cases h2 : env.exchange config code with
    | error err => simp [h2]
    | ok tok =>
      cases h3 : env.openFileErr tokFile with
      | some err => simp [h2, h3]
      | none => simp [h2, h3, pure_apply]

/-- The whole run of `getClient` when the cache read succeeds. -/
theorem getClient_hit_eq (env : Env) (config : Config) (s : State) (tok : Token)
    (hread : (tokenFromFile env tokFile s).value = some (.ok tok)) :
    getClient env config s = .ok { config := config, token := tok }
      { s with trace := s.trace ++
          [.getClient, .tokenFromFile tokFile, .osOpen tokFile, .newClient tok] } := by
  rw [tokenFromFile_eq] at hread
  simp only [Outcome.value, Option.some.injEq] at hread
  simp only [getClient, bind_apply, Proc.bind, emit, tokenFromFile_eq, hread, pure_apply]
  simp

theorem tokenFromFile_value (env : Env) (file : String) (s : State) :
    (tokenFromFile env file s).value =
      some (match s.files.lookup file with
            | none => .error ("open " ++ file ++ ": no such file or directory")
            | some content => env.decodeToken content) := by
  rw [tokenFromFile_eq]; rfl

/-- The run of `initCloud` when the secrets parse and the cache holds a token. -/
theorem initCloud_cached (env : Env) (s : State) (b : String) (config : Config) (tok : Token)
    (hsecret : s.files.lookup (googleSecretPath ++ "credentials.json") = some b)
    (hconf : env.configFromJSON b = .ok config)
    (htok : (tokenFromFile env tokFile s).value = some (.ok tok))
    (hnew : env.driveNewErr { config := config, token := tok } = none) :
    initCloud env s = .ok { client := { config := config, token := tok } }
      { s with trace := s.trace ++ [.initCloud,
          .readFile (googleSecretPath ++ "credentials.json"), .getClient,
          .tokenFromFile tokFile, .osOpen tokFile, .newClient tok] } := by
  have hcl := getClient_hit_eq env config
    { s with trace := s.trace ++ [.initCloud,
      .readFile (googleSecretPath ++ "credentials.json")] } tok
    (by rw [tokenFromFile_value] at htok ⊢; exact htok)
  simp only [initCloud, bind_apply, Proc.bind, emit, readFile, hsecret, hconf]
  simp only [List.append_assoc, List.singleton_append] at hcl ⊢
  rw [hcl]
  simp [hnew, pure_apply]

/-! ## What the operations add to the trace -/

theorem Emits.pure {α : Type} (Q : Event → Prop) (a : α) : Emits Q (pure a : Proc α) :=
  fun s => ⟨[], by simp [pure_apply, Outcome.state], by simp⟩

theorem Emits.logFatalf {α : Type} (Q : Event → Prop) (msg : String) :
    Emits Q (logFatalf msg : Proc α) :=
  fun s => ⟨[], by simp [GDrive.logFatalf, Outcome.state], by simp⟩

theorem Emits.emit (Q : Event → Prop) (e : Event) (h : Q e) : Emits Q (emit e) :=
  fun s => ⟨[e], by simp [GDrive.emit, Outcome.state], by simpa using h⟩

theorem Emits.bind {α β : Type} (Q : Event → Prop) (x : Proc α) (f : α → Proc β)
    (hx : Emits Q x) (hf : ∀ a, Emits Q (f a)) : Emits Q (x >>= f) := by
  intro s
  obtain ⟨evs, h1, h2⟩ := hx s
  rw [bind_apply]
  unfold Proc.bind
  cases hxs : x s with
  | ok a s1 =>
    rw [hxs] at h1
    obtain ⟨evs2, h3, h4⟩ := hf a s1
    refine ⟨evs ++ evs2, ?_, ?_⟩
    · simp only [Outcome.state] at h1
      simp only [h3, h1, List.append_assoc]
    · intro e he
      rcases List.mem_append.mp he with h | h
      · exact h2 e h
      · exact h4 e h
  | fatal m s1 => rw [hxs] at h1; exact ⟨evs, h1, h2⟩
  | panic p s1 => rw [hxs] at h1; exact ⟨evs, h1, h2⟩

theorem Emits.osOpen (Q : Event → Prop) (path : String) (h : Q (.osOpen path)) :
    Emits Q (osOpen path) := by
  intro s
  refine ⟨[.osOpen path], ?_, by simpa using h⟩
  unfold GDrive.osOpen
  cases s.files.lookup path <;> rfl

theorem Emits.readFile (Q : Event → Prop) (path : String) (h : Q (.readFile path)) :
    Emits Q (readFile path) := by
  intro s
  refine ⟨[.readFile path], ?_, by simpa using h⟩
  unfold GDrive.readFile
  cases s.files.lookup path <;> rfl

theorem Emits.osOpenFile (Q : Event → Prop) (env : Env) (path : String)
    (h : Q (.osOpenFile path)) : Emits Q (osOpenFile env path) := by
  intro s
  refine ⟨[.osOpenFile path], ?_, by simpa using h⟩
  unfold GDrive.osOpenFile
  cases env.openFileErr path <;> rfl

theorem Emits.osCreate (Q : Event → Prop) (env : Env) (path : String)
    (h : Q (.osCreate path)) : Emits Q (osCreate env path) := by
  intro s
  refine ⟨[.osCreate path], ?_, by simpa using h⟩
  unfold GDrive.osCreate
  cases env.openFileErr path <;> rfl

theorem Emits.fileWrite (Q : Event → Prop) (env : Env) (path data : String) :
    Emits Q (fileWrite env path data) := by
  intro s
  refine ⟨[], ?_, by simp⟩
  unfold GDrive.fileWrite
  cases env.writeErr path data <;> simp [Outcome.state]

theorem Emits.fmtScan (Q : Event → Prop) (h : Q .scan) : Emits Q fmtScan := by
  intro s
  refine ⟨[.scan], ?_, by simpa using h⟩
  unfold GDrive.fmtScan
  cases s.stdin <;> rfl

/-- The events `initCloud` can add: none of them is an entry into one of the
four file operations. -/
theorem initCloud_emits (env : Env) :
    Emits (fun e => e.isOperation = false) (initCloud env) := by
  unfold initCloud
  refine Emits.bind _ _ _ (Emits.emit _ _ rfl) (fun _ => ?_)
  refine Emits.bind _ _ _ (Emits.readFile _ _ rfl) (fun r => ?_)
  cases r with
  | error err => exact Emits.logFatalf _ _
  | ok b =>
    show Emits _ (match env.configFromJSON b with | .error err => _ | .ok config => _)
    cases env.configFromJSON b with
    | error err => exact Emits.logFatalf _ _
    | ok config =>
      refine Emits.bind _ _ _ ?_ (fun client => ?_)
      · unfold getClient
        refine Emits.bind _ _ _ (Emits.emit _ _ rfl) (fun _ => ?_)
        refine Emits.bind _ _ _ ?_ (fun tok => ?_)
        · refine Emits.bind _ _ _ ?_ (fun r => ?_)
          · unfold tokenFromFile
            refine Emits.bind _ _ _ (Emits.emit _ _ rfl) (fun _ => ?_)
            refine Emits.bind _ _ _ (Emits.osOpen _ _ rfl) (fun r => ?_)
            cases r <;> exact Emits.pure _ _
          · cases r with
            | ok tok => exact Emits.pure _ _
            | error e =>
              refine Emits.bind _ _ _ ?_ (fun tok => ?_)
              · unfold getTokenFromWeb
                refine Emits.bind _ _ _ (Emits.emit _ _ rfl) (fun _ => ?_)
                refine Emits.bind _ _ _ (Emits.emit _ _ rfl) (fun _ => ?_)
                refine Emits.bind _ _ _ (Emits.fmtScan _ rfl) (fun r => ?_)
                cases r with
                | error err => exact Emits.logFatalf _ _
                | ok authCode =>
                  refine Emits.bind _ _ _ (Emits.emit _ _ rfl) (fun _ => ?_)
                  show Emits _ (match env.exchange config authCode with
                    | .error err => _ | .ok tok => _)
                  cases env.exchange config authCode with
                  | error err => exact Emits.logFatalf _ _
                  | ok tok => exact Emits.pure _ _
              · refine Emits.bind _ _ _ ?_ (fun _ => Emits.pure _ _)
                unfold saveToken
                refine Emits.bind _ _ _ (Emits.emit _ _ rfl) (fun _ => ?_)
                refine Emits.bind _ _ _ (Emits.emit _ _ rfl) (fun _ => ?_)
                refine Emits.bind _ _ _ (Emits.osOpenFile _ _ _ rfl) (fun r => ?_)
                cases r with
                | error err => exact Emits.logFatalf _ _
                | ok u =>
                  refine Emits.bind _ _ _ ?_ (fun _ => Emits.pure _ _)
                  unfold jsonEncode
                  cases env.encodeToken tok with
                  | error err => exact Emits.pure _ _
                  | ok data => exact Emits.fileWrite _ _ _ _
        · exact Emits.bind _ _ _ (Emits.emit _ _ rfl) (fun _ => Emits.pure _ _)
      · show Emits _ (match env.driveNewErr client with | some err => _ | none => _)
        cases env.driveNewErr client with
        | some err => exact Emits.logFatalf _ _
        | none => exact Emits.pure _ _

theorem Emits.printFiles (Q : Event → Prop) (h : ∀ t, Q (.stdout t)) (files : List DriveFile) :
    Emits Q (printFiles files) := by
  induction files with
  | nil => exact Emits.pure _ _
  | cons i rest ih =>
    unfold GDrive.printFiles
    exact Emits.bind _ _ _ (Emits.emit _ _ (h _)) (fun _ => ih)

/-- A function that records its entry and then adds no entry into a file
operation has exactly one such entry among its new events. -/
theorem operations_of_entry {α : Type} (entry : Event) (rest : Proc α) (s : State)
    (hentry : entry.isOperation = true)
    (hrest : Emits (fun e => e.isOperation = false) rest) :
    (newEvents s ((emit entry >>= fun _ => rest) s)).filter Event.isOperation = [entry] := by
  obtain ⟨evs, h1, h2⟩ := hrest { s with trace := s.trace ++ [entry] }
  have h3 : ((emit entry >>= fun _ => rest) s).state.trace = s.trace ++ entry :: evs := by
    have : (emit entry >>= fun _ => rest) s = rest { s with trace := s.trace ++ [entry] } := rfl
    rw [this, h1]; simp
  rw [newEvents_of_trace s _ _ h3, List.filter_cons, hentry]
  simp only [if_true, List.cons.injEq, true_and, List.filter_eq_nil_iff]
  intro e he
  simp [h2 e he]

theorem fileGet_operations (env : Env) (fileName id : String) (s : State) :
    (newEvents s (fileGet env fileName id s)).filter Event.isOperation
      = [.fileGet fileName id] := by
  unfold fileGet
  refine operations_of_entry _ _ _ rfl ?_
  split
  · exact Emits.logFatalf _ _
  · split
    · exact Emits.logFatalf _ _
    · refine Emits.bind _ _ _ (initCloud_emits env) (fun srv => ?_)
      refine Emits.bind _ _ _ (Emits.emit _ _ rfl) (fun _ => ?_)
      show Emits _ (match env.download srv id with | .error err => _ | .ok body => _)
      cases env.download srv id with
      | error err => exact Emits.logFatalf _ _
      | ok body =>
        refine Emits.bind _ _ _ (Emits.osCreate _ _ _ rfl) (fun r => ?_)
        cases r with
        | error err => exact Emits.logFatalf _ _
        | ok u =>
          refine Emits.bind _ _ _ (Emits.fileWrite _ _ _ _) (fun r => ?_)
          cases r with
          | error err => exact Emits.logFatalf _ _
          | ok u => exact Emits.emit _ _ rfl

theorem fileUpdateCloud_operations (env : Env) (fileName id : String) (s : State) :
    (newEvents s (fileUpdateCloud env fileName id s)).filter Event.isOperation
      = [.fileUpdateCloud fileName id] := by
  unfold fileUpdateCloud
  refine operations_of_entry _ _ _ rfl ?_
  split
  · exact Emits.logFatalf _ _
  · split
    · exact Emits.logFatalf _ _
    · refine Emits.bind _ _ _ (initCloud_emits env) (fun srv => ?_)
      refine Emits.bind _ _ _ (Emits.osOpen _ _ rfl) (fun r => ?_)
      cases r with
      | error err => exact Emits.logFatalf _ _
      | ok file =>
        refine Emits.bind _ _ _ (Emits.emit _ _ rfl) (fun _ => ?_)
        show Emits _ (match env.update srv id _ file with | .error err => _ | .ok res => _)
        cases env.update srv id _ file with
        | error err => exact Emits.logFatalf _ _
        | ok res => exact Emits.emit _ _ rfl

theorem fileCreateCloud_operations (env : Env) (fileName : String) (s : State) :
    (newEvents s (fileCreateCloud env fileName s)).filter Event.isOperation
      = [.fileCreateCloud fileName] := by
  unfold fileCreateCloud
  refine operations_of_entry _ _ _ rfl ?_
  split
  · exact Emits.logFatalf _ _
  · refine Emits.bind _ _ _ (initCloud_emits env) (fun srv => ?_)
    refine Emits.bind _ _ _ (Emits.osOpen _ _ rfl) (fun r => ?_)
    cases r with
    | error err => exact Emits.logFatalf _ _
    | ok file =>
      refine Emits.bind _ _ _ (Emits.emit _ _ rfl) (fun _ => ?_)
      show Emits _ (match env.create srv _ file with | .error err => _ | .ok res => _)
      cases env.create srv _ file with
      | error err => exact Emits.logFatalf _ _
      | ok res => exact Emits.emit _ _ rfl

theorem filesList_operations (env : Env) (s : State) :
    (newEvents s (filesList env s)).filter Event.isOperation = [.filesList] := by
  unfold filesList
  refine operations_of_entry _ _ _ rfl ?_
  refine Emits.bind _ _ _ (initCloud_emits env) (fun srv => ?_)
  refine Emits.bind _ _ _ (Emits.emit _ _ rfl) (fun _ => ?_)
  show Emits _ (match env.list srv with | .error err => _ | .ok files => _)
  cases env.list srv with
  | error err => exact Emits.logFatalf _ _
  | ok files =>
    refine Emits.bind _ _ _ (Emits.emit _ _ rfl) (fun _ => ?_)
    split
    · exact Emits.emit _ _ rfl
    · exact Emits.printFiles _ (fun t => (rfl : (Event.stdout t).isOperation = false)) _

/-! ## Strings, paths and printed lines -/

theorem len_lt_one_iff (s : String) : len s < 1 ↔ s = "" := by
  cases s with
  | mk cs =>
    cases cs with
    | nil => simp [len, String.utf8ByteSize, String.utf8ByteSize.go]
    | cons c rest =>
      have hc := c.utf8Size_pos
      constructor
      · intro h
        simp only [len, String.utf8ByteSize, String.utf8ByteSize.go] at h
        omega
      · intro h
        have := congrArg String.data h
        simp at this

theorem takeWhile_append_stop (xs ys : List Char) (h : ∀ c ∈ xs, c ≠ '/') :
    (xs ++ '/' :: ys).takeWhile (· ≠ '/') = xs := by
  induction xs with
  | nil => simp [List.takeWhile]
  | cons c rest ih =>
    have hc : c ≠ '/' := h c (by simp)
    simp only [List.cons_append, List.takeWhile_cons]
    simp only [ne_eq, hc, not_false_eq_true, decide_True, if_true]
    rw [ih (fun d hd => h d (by simp [hd]))]

theorem takeWhile_all (xs : List Char) (h : ∀ c ∈ xs, c ≠ '/') :
    xs.takeWhile (· ≠ '/') = xs := by
  induction xs with
  | nil => rfl
  | cons c rest ih =>
    have hc : c ≠ '/' := h c (by simp)
    simp only [List.takeWhile_cons]
    simp only [ne_eq, hc, not_false_eq_true, decide_True, if_true]
    rw [ih (fun d hd => h d (by simp [hd]))]

theorem dropWhile_head (xs : List Char) (c : Char) (hc : c ≠ '/') :
    (c :: xs).dropWhile (· = '/') = c :: xs := by
  simp [List.dropWhile, hc]

/-- `Base` returns the last element of a path: a name without slash is its own
base, and so is it behind any directory part. -/
theorem Base_final_element (dir name : String) (hne : name ≠ "")
    (hslash : ∀ c ∈ name.data, c ≠ '/') :
    Base name = name ∧ Base (dir ++ "/" ++ name) = name := by
  have hdata : name.data ≠ [] := by
    intro h; apply hne
    cases name; simp_all
  obtain ⟨c, rest, hrev⟩ : ∃ c rest, name.data.reverse = c :: rest := by
    cases h : name.data.reverse with
    | nil => simp at h; exact absurd h hdata
    | cons c rest => exact ⟨c, rest, rfl⟩
  have hc : c ≠ '/' := hslash c (by
    have : c ∈ name.data.reverse := by rw [hrev]; simp
    simpa using this)
  have hrevall : ∀ d ∈ name.data.reverse, d ≠ '/' := fun d hd => hslash d (by simpa using hd)
  constructor
  · unfold Base
    rw [if_neg hne]
    simp only [hrev, dropWhile_head _ _ hc]
    rw [← hrev, takeWhile_all _ hrevall]
    simp [hdata]
  · have hne2 : dir ++ "/" ++ name ≠ "" := by
      intro h
      have := congrArg String.data h
      simp [String.data_append] at this
    unfold Base
    rw [if_neg hne2]
    have hd : (dir ++ "/" ++ name).data.reverse
        = name.data.reverse ++ '/' :: dir.data.reverse := by
      simp [String.data_append]
    simp only [hd, hrev, List.cons_append, dropWhile_head _ _ hc]
    rw [← List.cons_append, ← hrev, takeWhile_append_stop _ _ hrevall]
    simp [hdata]

theorem printFiles_eq (files : List DriveFile) (s : State) :
    printFiles files s
      = .ok () { s with trace := s.trace ++ files.map (fun i => Event.stdout (fileLine i)) } := by
  induction files generalizing s with
  | nil => simp [printFiles, pure_apply]
  | cons i rest ih =>
    simp only [printFiles, bind_apply, Proc.bind, printf, emit, ih]
    simp

theorem printed_map_stdout (ts : List String) :
    printed (ts.map Event.stdout) = ts := by
  induction ts with
  | nil => rfl
  | cons t rest ih => simp [printed, ih]

theorem fileLine_ne_message (i : DriveFile) : fileLine i ≠ "No files found.\n" := by
  intro h
  have := congrArg String.data h
  simp [fileLine, String.data_append] at this


/-- When the file opens and `Encode` succeeds, the file holds exactly the
marshalled token, whatever it held before, and the following `tokenFromFile`
returns what the decoder makes of that text. -/
theorem saveToken_stores_encoding (env : Env) (path : String) (token : Token) (s : State)
    (data : String)
    (hopen : env.openFileErr path = none) (henc : env.encodeToken token = .ok data)
    (hwrite : env.writeErr path data = none) :
    (saveToken env path token s).returned = true
    ∧ (saveToken env path token s).state.files.lookup path = some data
    ∧ (tokenFromFile env path (saveToken env path token s).state).value
        = some (env.decodeToken data) := by
  rw [saveToken_eq, tokenFromFile_eq]
  simp [hopen, henc, hwrite, Outcome.returned, Outcome.value, Outcome.state, List.lookup]

/-! ## What `initCloud` prints -/

theorem printed_append (xs ys : List Event) : printed (xs ++ ys) = printed xs ++ printed ys := by
  induction xs with
  | nil => rfl
  | cons e rest ih => cases e <;> simp [printed, ih]

theorem stdout_mem_of_mem_printed (t : String) (evs : List Event) (h : t ∈ printed evs) :
    Event.stdout t ∈ evs := by
  induction evs with
  | nil => simp [printed] at h
  | cons e rest ih =>
    cases e <;> simp only [printed, List.mem_cons] at h <;>
      first
        | exact List.mem_cons_of_mem _ (ih h)
        | (rcases h with h | h
           · rw [h]; exact List.mem_cons_self _ _
           · exact List.mem_cons_of_mem _ (ih h))

theorem prompt_ne_message (url : String) :
    Event.stdout ("Go to the following link in your browser then type the " ++
      "authorization code: \n" ++ url ++ "\n") ≠ Event.stdout "No files found.\n" := by
  intro h
  have h2 := congrArg String.data (Event.stdout.inj h)
  simp [String.data_append] at h2

theorem saving_ne_message (path : String) :
    Event.stdout ("Saving credential file to: " ++ path ++ "\n")
      ≠ Event.stdout "No files found.\n" := by
  intro h
  have h2 := congrArg String.data (Event.stdout.inj h)
  simp [String.data_append] at h2

/-- The events `initCloud` can add: none of them prints the message
`No files found.`. -/
theorem initCloud_emits_no_message (env : Env) :
    Emits (fun e => e ≠ Event.stdout "No files found.\n") (initCloud env) := by
  unfold initCloud
  refine Emits.bind _ _ _ (Emits.emit _ _ (by simp)) (fun _ => ?_)
  refine Emits.bind _ _ _ (Emits.readFile _ _ (by simp)) (fun r => ?_)
  cases r with
  | error err => exact Emits.logFatalf _ _
  | ok b =>
    show Emits _ (match env.configFromJSON b with | .error err => _ | .ok config => _)
    cases env.configFromJSON b with
    | error err => exact Emits.logFatalf _ _
    | ok config =>
      refine Emits.bind _ _ _ ?_ (fun client => ?_)
      · unfold getClient
        refine Emits.bind _ _ _ (Emits.emit _ _ (by simp)) (fun _ => ?_)
        refine Emits.bind _ _ _ ?_ (fun tok => ?_)
        · refine Emits.bind _ _ _ ?_ (fun r => ?_)
          · unfold tokenFromFile
            refine Emits.bind _ _ _ (Emits.emit _ _ (by simp)) (fun _ => ?_)
            refine Emits.bind _ _ _ (Emits.osOpen _ _ (by simp)) (fun r => ?_)
            cases r <;> exact Emits.pure _ _
          · cases r with
            | ok tok => exact Emits.pure _ _
            | error e =>
              refine Emits.bind _ _ _ ?_ (fun tok => ?_)
              · unfold getTokenFromWeb
                refine Emits.bind _ _ _ (Emits.emit _ _ (by simp)) (fun _ => ?_)
                refine Emits.bind _ _ _ (Emits.emit _ _ (prompt_ne_message _)) (fun _ => ?_)
                refine Emits.bind _ _ _ (Emits.fmtScan _ (by simp)) (fun r => ?_)
                cases r with
                | error err => exact Emits.logFatalf _ _
                | ok authCode =>
                  refine Emits.bind _ _ _ (Emits.emit _ _ (by simp)) (fun _ => ?_)
                  show Emits _ (match env.exchange config authCode with
                    | .error err => _ | .ok tok => _)
                  cases env.exchange config authCode with
                  | error err => exact Emits.logFatalf _ _
                  | ok tok => exact Emits.pure _ _
              · refine Emits.bind _ _ _ ?_ (fun _ => Emits.pure _ _)
                unfold saveToken
                refine Emits.bind _ _ _ (Emits.emit _ _ (by simp)) (fun _ => ?_)
                refine Emits.bind _ _ _ (Emits.emit _ _ (saving_ne_message _)) (fun _ => ?_)
                refine Emits.bind _ _ _ (Emits.osOpenFile _ _ _ (by simp)) (fun r => ?_)
                cases r with
                | error err => exact Emits.logFatalf _ _
                | ok u =>
                  refine Emits.bind _ _ _ ?_ (fun _ => Emits.pure _ _)
                  unfold jsonEncode
                  cases env.encodeToken tok with
                  | error err => exact Emits.pure _ _
                  | ok data => exact Emits.fileWrite _ _ _ _
        · exact Emits.bind _ _ _ (Emits.emit _ _ (by simp)) (fun _ => Emits.pure _ _)
      · show Emits _ (match env.driveNewErr client with | some err => _ | none => _)
        cases env.driveNewErr client with
        | some err => exact Emits.logFatalf _ _
        | none => exact Emits.pure _ _

/-- With a token in the cache `initCloud` prints nothing, however it ends. -/
theorem initCloud_prints_nothing_cached (env : Env) (s : State) (tok : Token)
    (htok : (tokenFromFile env tokFile s).value = some (.ok tok)) :
    printed (newEvents s (initCloud env s)) = [] := by
  cases h1 : s.files.lookup (googleSecretPath ++ "credentials.json") with
  | none =>
    simp [initCloud, bind_apply, Proc.bind, emit, readFile, h1, logFatalf, newEvents,
      Outcome.state, printed]
  | some b =>
    cases h2 : env.configFromJSON b with
    | error err =>
      simp [initCloud, bind_apply, Proc.bind, emit, readFile, h1, h2, logFatalf, newEvents,
        Outcome.state, printed]
    | ok config =>
      have hcl := getClient_hit_eq env config
        { s with trace := s.trace ++ [.initCloud,
          .readFile (googleSecretPath ++ "credentials.json")] } tok
        (by rw [tokenFromFile_value] at htok ⊢; exact htok)
      simp only [List.append_assoc, List.singleton_append] at hcl
      cases h3 : env.driveNewErr { config := config, token := tok } <;>
        simp [initCloud, bind_apply, Proc.bind, emit, readFile, h1, h2, h3, hcl, logFatalf,
          pure_apply, newEvents, Outcome.state, printed]

/-- The run of `initCloud`, up to the call of `getClient`. -/
theorem initCloud_eq (env : Env) (s : State) :
    initCloud env s =
      match s.files.lookup (googleSecretPath ++ "credentials.json") with
      | none => .fatal ("Unable to read client secret file: " ++
          ("open " ++ (googleSecretPath ++ "credentials.json") ++ ": no such file or directory"))
          { s with trace := s.trace ++ [.initCloud,
              .readFile (googleSecretPath ++ "credentials.json")] }
      | some b =>
        match env.configFromJSON b with
        | .error err => .fatal ("Unable to parse client secret file to config: " ++ err)
            { s with trace := s.trace ++ [.initCloud,
                .readFile (googleSecretPath ++ "credentials.json")] }
        | .ok config =>
          match getClient env config { s with trace := s.trace ++ [.initCloud,
              .readFile (googleSecretPath ++ "credentials.json")] } with
          | .ok client s1 =>
            (match env.driveNewErr client with
              | some err => .fatal ("Unable to retrieve Drive client: " ++ err) s1
              | none => .ok { client := client } s1)
          | .fatal m s1 => .fatal m s1
          | .panic p s1 => .panic p s1 := by
  cases h1 : s.files.lookup (googleSecretPath ++ "credentials.json") with
  | none => simp [initCloud, bind_apply, Proc.bind, emit, readFile, h1, logFatalf]
  | some b =>
    cases h2 : env.configFromJSON b with
    | error err => simp [initCloud, bind_apply, Proc.bind, emit, readFile, h1, h2, logFatalf]
    | ok config =>
      simp only [initCloud, bind_apply, Proc.bind, emit, readFile, h1, h2,
        List.append_assoc, List.singleton_append]
      cases hg : getClient env config { s with trace := s.trace ++ [.initCloud,
              .readFile (googleSecretPath ++ "credentials.json")] } with
      | ok client s1 =>
        cases h3 : env.driveNewErr client <;> simp [logFatalf, pure_apply, h3]
      | fatal m s1 => rfl
      | panic p s1 => rfl

/-- When the cache read fails and `initCloud` returns, it printed the consent
prompt and the line of `saveToken`, and nothing else. -/
theorem initCloud_printed_of_miss (env : Env) (s s1 : State) (srv : Service)
    (hmiss : s.files.lookup tokFile = none ∨
      ∃ content e, s.files.lookup tokFile = some content ∧ env.decodeToken content = .error e)
    (hinit : initCloud env s = .ok srv s1) :
    printed (newEvents s (initCloud env s)) =
      ["Go to the following link in your browser then type the " ++
        "authorization code: \n" ++ env.authCodeURL srv.client.config ++ "\n",
       "Saving credential file to: " ++ tokFile ++ "\n"] := by
  rw [hinit]
  rw [initCloud_eq] at hinit
  cases h1 : s.files.lookup (googleSecretPath ++ "credentials.json") with
  | none => simp [h1] at hinit
  | some b =>
    cases h2 : env.configFromJSON b with
    | error err => simp [h1, h2] at hinit
    | ok config =>
      have hcl := getClient_miss_eq env config
        { s with trace := s.trace ++ [.initCloud,
          .readFile (googleSecretPath ++ "credentials.json")] } hmiss
      simp only [h1, h2] at hinit
      rw [hcl] at hinit
      cases h3 : s.stdin with
      | nil => simp [h3] at hinit
      | cons code rest =>
        cases h4 : env.exchange config code with
        | error err => simp [h3, h4] at hinit
        | ok tok =>
          cases h5 : env.openFileErr tokFile with
          | some err => simp [h3, h4, h5] at hinit
          | none =>
            cases h6 : env.driveNewErr { config := config, token := tok } with
            | some err => simp [h3, h4, h5, h6] at hinit
            | none =>
              simp only [h3, h4, h5, h6] at hinit
              injection hinit with hsrv hs1
              subst hsrv
              subst hs1
              simp [newEvents, Outcome.state, printed]

/-! ## The claims -/

/-- Claim C1, amended.  For every cache state in which reading the token cache
fails (file absent, or file present with a content the decoder rejects), the
failed read is returned as an error value, `getClient` enters `getTokenFromWeb`
exactly once, and when a code is read and the exchange succeeds it calls
`saveToken` exactly once, with the token the exchange returned; provided the
cache file can then be opened for writing, it builds exactly one client, from
that same token. -/
theorem getClient_cache_miss_runs_flow_once (env : Env) (config : Config) (s : State)
    (hmiss : s.files.lookup tokFile = none ∨
      ∃ content e, s.files.lookup tokFile = some content ∧ env.decodeToken content = .error e) :
    (∃ e, (tokenFromFile env tokFile s).value = some (.error e))
    ∧ (newEvents s (getClient env config s)).count .getTokenFromWeb = 1
    ∧ ∀ code rest tok, s.stdin = code :: rest → env.exchange config code = .ok tok →
        (newEvents s (getClient env config s)).filter Event.isSaveToken
          = [.saveToken tokFile tok]
        ∧ (env.openFileErr tokFile = none →
            (getClient env config s).value = some { config := config, token := tok }
            ∧ (newEvents s (getClient env config s)).filter Event.isNewClient
                = [.newClient tok]) := by
  refine ⟨?_, ?_, ?_⟩
  · obtain ⟨e, he⟩ := tokenFromFile_miss env tokFile s hmiss
    exact ⟨e, by rw [he]; rfl⟩
  · rw [getClient_miss_eq env config s hmiss]
    cases h1 : s.stdin with
    | nil => simp [newEvents, Outcome.state]
    | cons code rest =>
      cases h2 : env.exchange config code with
      | error err => simp [h2, newEvents, Outcome.state]
      | ok tok =>
        cases h3 : env.openFileErr tokFile with
        | some err => simp [h2, h3, newEvents, Outcome.state]
        | none => simp [h2, h3, newEvents, Outcome.state]
  · intro code rest tok h1 h2
    rw [getClient_miss_eq env config s hmiss]
    cases h3 : env.openFileErr tokFile with
    | some err => simp [h1, h2, h3, newEvents, Outcome.state, Event.isSaveToken]
    | none => simp [h1, h2, h3, newEvents, Outcome.state, Outcome.value, Event.isSaveToken,
        Event.isNewClient]

/-- Witness for claim C1: the run on a cache file cut short, in the sample
world. -/
theorem getClient_cache_miss_runs_flow_once_witness :
    (corruptRun.files.lookup tokFile = some truncatedJSON
      ∧ sampleEnv.decodeToken truncatedJSON = .error "unexpected EOF")
    ∧ (tokenFromFile sampleEnv tokFile corruptRun).value = some (.error "unexpected EOF")
    ∧ (newEvents corruptRun (getClient sampleEnv sampleConfig corruptRun)).count
        .getTokenFromWeb = 1
    ∧ (newEvents corruptRun (getClient sampleEnv sampleConfig corruptRun)).filter
        Event.isSaveToken = [.saveToken tokFile freshToken]
    ∧ (getClient sampleEnv sampleConfig corruptRun).value
        = some { config := sampleConfig, token := freshToken } :=
  have h := getClient_cache_miss_runs_flow_once sampleEnv sampleConfig corruptRun
    (Or.inr ⟨truncatedJSON, "unexpected EOF", by rfl, by rfl⟩)
  ⟨⟨by rfl, by rfl⟩, by rfl, h.2.1,
    (h.2.2 "4/0AX4XfWh" [] freshToken (by rfl) (by rfl)).1,
    ((h.2.2 "4/0AX4XfWh" [] freshToken (by rfl) (by rfl)).2 (by rfl)).1⟩

/-- Counterexample to claim C1 as stated: no cache file, the exchange succeeds,
`saveToken` is called once with the fresh token, but the cache file cannot be
opened for writing, so the process exits in `saveToken` and no client is
built. -/
theorem getClient_cache_miss_no_client :
    firstRun.files.lookup tokFile = none
    ∧ firstRun.stdin = ["4/0AX4XfWh"]
    ∧ readOnlyEnv.exchange sampleConfig "4/0AX4XfWh" = .ok freshToken
    ∧ (newEvents firstRun (getClient readOnlyEnv sampleConfig firstRun)).filter
        Event.isSaveToken = [.saveToken tokFile freshToken]
    ∧ (getClient readOnlyEnv sampleConfig firstRun).value = none
    ∧ (newEvents firstRun (getClient readOnlyEnv sampleConfig firstRun)).filter
        Event.isNewClient = [] := by
  refine ⟨by rfl, by rfl, by rfl, by decide, by rfl, by decide⟩

/-- Claim C2.  For every token that `tokenFromFile` reads successfully from
the cache, whatever its expiry, `getClient` returns the client built from
exactly that token; it adds no event of the authorization flow (no entry into
`getTokenFromWeb`, no code read, no exchange), prints nothing, does not call
`saveToken`, and leaves the files and the standard input as they were. -/
theorem getClient_uses_cached_token (env : Env) (config : Config) (s : State) (tok : Token)
    (hread : (tokenFromFile env tokFile s).value = some (.ok tok)) :
    getClient env config s = .ok { config := config, token := tok }
      { s with trace := s.trace ++
          [.getClient, .tokenFromFile tokFile, .osOpen tokFile, .newClient tok] }
    ∧ (newEvents s (getClient env config s)).filter Event.isAuthFlow = []
    ∧ (newEvents s (getClient env config s)).filter Event.isSaveToken = []
    ∧ printed (newEvents s (getClient env config s)) = []
    ∧ (newEvents s (getClient env config s)).filter Event.isNewClient = [.newClient tok] := by
  have hrun := getClient_hit_eq env config s tok hread
  have hev : newEvents s (getClient env config s) =
      [.getClient, .tokenFromFile tokFile, .osOpen tokFile, .newClient tok] := by
    apply newEvents_of_trace; rw [hrun]; rfl
  refine ⟨hrun, ?_, ?_, ?_, ?_⟩ <;> rw [hev] <;> rfl

/-- Witness for claim C2: the cache holds a token that expired in 2020. -/
theorem getClient_uses_cached_token_witness :
    (tokenFromFile sampleEnv tokFile laterRun).value = some (.ok staleToken)
    ∧ getClient sampleEnv sampleConfig laterRun = .ok { config := sampleConfig, token := staleToken }
      { laterRun with trace := laterRun.trace ++
          [.getClient, .tokenFromFile tokFile, .osOpen tokFile, .newClient staleToken] } :=
  ⟨by rfl, (getClient_uses_cached_token sampleEnv sampleConfig laterRun staleToken (by rfl)).1⟩

/-- Counterexample to claim C3 as stated: the cache read fails, the
authorization flow returns the fresh token, `saveToken` cannot open the cache
file for writing, and `getClient` ends in `log.Fatalf` instead of returning a
client. -/
theorem getClient_save_failure_is_fatal :
    (tokenFromFile readOnlyEnv tokFile firstRun).value
        = some (.error "open ../gsecret/token.json: no such file or directory")
    ∧ (getTokenFromWeb readOnlyEnv sampleConfig firstRun).value = some freshToken
    ∧ (saveToken readOnlyEnv tokFile freshToken firstRun).returned = false
    ∧ getClient readOnlyEnv sampleConfig firstRun
        = .fatal "Unable to cache oauth token: open ../gsecret/token.json: permission denied"
            { files := firstRun.files
              stdin := []
              trace := [.getClient, .tokenFromFile tokFile, .osOpen tokFile, .getTokenFromWeb,
                .stdout ("Go to the following link in your browser then type the " ++
                  "authorization code: \n" ++
                  "https://accounts.google.com/o/oauth2/auth?access_type=offline&state=state-token"
                  ++ "\n"),
                .scan, .exchange "4/0AX4XfWh", .saveToken tokFile freshToken,
                .stdout "Saving credential file to: ../gsecret/token.json\n",
                .osOpenFile tokFile] } := by
  refine ⟨by rfl, by rfl, by rfl, by rfl⟩

/-- Claim C3, amended.  In every run of `getClient` in which the cache read
fails and the authorization flow succeeds: once the cache file is open, a
failure of the encoding step of `saveToken` (the token cannot be marshalled,
or the write fails) does not abort client construction, and `getClient`
returns a client bound to the fresh token; a failure to open the cache file
for writing ends the process with the diagnostic
`Unable to cache oauth token`. -/
theorem getClient_survives_encode_failure (env : Env) (config : Config) (s : State)
    (code : String) (rest : List String) (tok : Token)
    (hmiss : s.files.lookup tokFile = none ∨
      ∃ content e, s.files.lookup tokFile = some content ∧ env.decodeToken content = .error e)
    (hstdin : s.stdin = code :: rest) (hexch : env.exchange config code = .ok tok) :
    (env.openFileErr tokFile = none →
      ((∃ e, env.encodeToken tok = .error e) ∨
        (∃ data failure, env.encodeToken tok = .ok data
          ∧ env.writeErr tokFile data = some failure)) →
        (getClient env config s).value = some { config := config, token := tok })
    ∧ (∀ err, env.openFileErr tokFile = some err →
        ∃ st, getClient env config s = .fatal ("Unable to cache oauth token: " ++ err) st) := by
  rw [getClient_miss_eq env config s hmiss]
  constructor
  · intro hopen _
    simp [hstdin, hexch, hopen, Outcome.value]
  · intro err hopen
    simp [hstdin, hexch, hopen]

/-- Witness for claim C3: first run on a disk that fails in the middle of the
write; the client is bound to the fresh token. -/
theorem getClient_survives_encode_failure_witness :
    (firstRun.files.lookup tokFile = none
      ∧ firstRun.stdin = ["4/0AX4XfWh"]
      ∧ failingDiskEnv.exchange sampleConfig "4/0AX4XfWh" = .ok freshToken
      ∧ failingDiskEnv.openFileErr tokFile = none
      ∧ failingDiskEnv.encodeToken freshToken = .ok freshJSON
      ∧ failingDiskEnv.writeErr tokFile freshJSON
          = some { err := "write ../gsecret/token.json: input/output error",
                   written := "\x7b\"access_token\":\"ya29.fr" })
    ∧ (getClient failingDiskEnv sampleConfig firstRun).value
        = some { config := sampleConfig, token := freshToken } :=
  ⟨⟨by rfl, by rfl, by rfl, by rfl, by rfl, by rfl⟩,
    (getClient_survives_encode_failure failingDiskEnv sampleConfig firstRun "4/0AX4XfWh" []
      freshToken (Or.inl (by rfl)) (by rfl) (by rfl)).1 (by rfl)
      (Or.inr ⟨freshJSON, _, by rfl, by rfl⟩)⟩

/-- Claim C4 fails on the code.  On a first run with a full disk `saveToken`
opens the cache file, which creates it empty, `Encode` fails on the write, its
error is dropped and `saveToken` returns normally; the cache file is empty and
the following `tokenFromFile` returns the error `EOF` instead of the token that
was saved. -/
theorem saveToken_returns_without_writing :
    fullDiskEnv.openFileErr tokFile = none
    ∧ fullDiskEnv.encodeToken freshToken = .ok freshJSON
    ∧ fullDiskEnv.writeErr tokFile freshJSON
        = some { err := "write ../gsecret/token.json: no space left on device", written := "" }
    ∧ (jsonEncode fullDiskEnv tokFile freshToken
        { firstRun with files := (tokFile, "") :: firstRun.files }).value
      = some (.error "write ../gsecret/token.json: no space left on device")
    ∧ (saveToken fullDiskEnv tokFile freshToken firstRun).returned = true
    ∧ (saveToken fullDiskEnv tokFile freshToken firstRun).state.files.lookup tokFile = some ""
    ∧ (tokenFromFile fullDiskEnv tokFile
        (saveToken fullDiskEnv tokFile freshToken firstRun).state).value
      = some (.error "EOF") := by
  refine ⟨by rfl, by rfl, by rfl, by rfl, by rfl, by rfl, by rfl⟩

/-- Claim C5.  Whenever a required argument is the empty string (`file` for
`fileGet`, `fileUpdateCloud` and `fileCreateCloud`, `id` for the first two),
the operation ends in `log.Fatalf` and the only event it added is its own
entry: `initCloud` was not entered, the secrets file was not read, no token
was loaded or requested, no remote call was made and no local file was
opened. -/
theorem empty_argument_is_fatal_before_initCloud (env : Env) (fileName id : String)
    (s : State) (hempty : fileName = "" ∨ id = "") :
    (fileGet env fileName id s
        = .fatal (if fileName = "" then "Unable to retrieve Drive client: File name is empty"
            else "Unable to retrieve Drive client: File Id is empty")
          { s with trace := s.trace ++ [.fileGet fileName id] }
      ∧ (newEvents s (fileGet env fileName id s)).filter Event.isCloudWork = [])
    ∧ (fileUpdateCloud env fileName id s
        = .fatal (if fileName = "" then "Unable to retrieve Drive client: File name is empty"
            else "Unable to retrieve Drive client: File Id is empty")
          { s with trace := s.trace ++ [.fileUpdateCloud fileName id] }
      ∧ (newEvents s (fileUpdateCloud env fileName id s)).filter Event.isCloudWork = [])
    ∧ (fileName = "" →
        fileCreateCloud env fileName s
          = .fatal "Unable to retrieve Drive client: File name is empty"
            { s with trace := s.trace ++ [.fileCreateCloud fileName] }
        ∧ (newEvents s (fileCreateCloud env fileName s)).filter Event.isCloudWork = []) := by
  have hget : fileGet env fileName id s
        = .fatal (if fileName = "" then "Unable to retrieve Drive client: File name is empty"
            else "Unable to retrieve Drive client: File Id is empty")
          { s with trace := s.trace ++ [.fileGet fileName id] } := by
    by_cases hf : fileName = ""
    · simp [fileGet, bind_apply, Proc.bind, emit, logFatalf, (len_lt_one_iff fileName).mpr hf, hf]
      rfl
    · have hi : id = "" := hempty.resolve_left hf
      simp [fileGet, bind_apply, Proc.bind, emit, logFatalf, mt (len_lt_one_iff fileName).mp hf,
        (len_lt_one_iff id).mpr hi, hf]
  have hupd : fileUpdateCloud env fileName id s
        = .fatal (if fileName = "" then "Unable to retrieve Drive client: File name is empty"
            else "Unable to retrieve Drive client: File Id is empty")
          { s with trace := s.trace ++ [.fileUpdateCloud fileName id] } := by
    by_cases hf : fileName = ""
    · simp [fileUpdateCloud, bind_apply, Proc.bind, emit, logFatalf,
        (len_lt_one_iff fileName).mpr hf, hf]
      rfl
    · have hi : id = "" := hempty.resolve_left hf
      simp [fileUpdateCloud, bind_apply, Proc.bind, emit, logFatalf,
        mt (len_lt_one_iff fileName).mp hf, (len_lt_one_iff id).mpr hi, hf]
  refine ⟨⟨hget, ?_⟩, ⟨hupd, ?_⟩, ?_⟩
  · rw [hget]; simp [newEvents, Outcome.state, Event.isCloudWork]
  · rw [hupd]; simp [newEvents, Outcome.state, Event.isCloudWork]
  · intro hf
    have hcre : fileCreateCloud env fileName s
          = .fatal "Unable to retrieve Drive client: File name is empty"
            { s with trace := s.trace ++ [.fileCreateCloud fileName] } := by
      simp [fileCreateCloud, bind_apply, Proc.bind, emit, logFatalf,
        (len_lt_one_iff fileName).mpr hf]
    refine ⟨hcre, ?_⟩
    rw [hcre]; simp [newEvents, Outcome.state, Event.isCloudWork]

/-- Witness for claim C5: the three operations with an empty file name. -/
theorem empty_argument_is_fatal_before_initCloud_witness :
    ("" = "" ∨ "1a2B3c" = "")
    ∧ fileGet sampleEnv "" "1a2B3c" laterRun
        = .fatal "Unable to retrieve Drive client: File name is empty"
          { laterRun with trace := [.fileGet "" "1a2B3c"] }
    ∧ fileUpdateCloud sampleEnv "" "1a2B3c" laterRun
        = .fatal "Unable to retrieve Drive client: File name is empty"
          { laterRun with trace := [.fileUpdateCloud "" "1a2B3c"] }
    ∧ fileCreateCloud sampleEnv "" laterRun
        = .fatal "Unable to retrieve Drive client: File name is empty"
          { laterRun with trace := [.fileCreateCloud ""] } :=
  have h := empty_argument_is_fatal_before_initCloud sampleEnv "" "1a2B3c" laterRun
    (Or.inl rfl)
  ⟨Or.inl rfl, h.1.1, h.2.1.1, (h.2.2 rfl).1⟩

/-- Claim C6.  For every command string other than `fileGet`, `fileUpdate`,
`fileCreate` and `fileList`, the dispatcher ends in `log.Fatalf` with the
diagnostic `Command <command> not allowed`, which contains the rejected
string, and enters none of the four file operations; for each of the four
names it runs the corresponding operation, and the entry into that operation
is the only entry into a file operation. -/
theorem dispatch_runs_only_the_named_operation (env : Env) (command file id : String)
    (s : State) :
    (command ≠ "fileGet" → command ≠ "fileUpdate" → command ≠ "fileCreate" →
      command ≠ "fileList" →
        dispatch env command file id s
            = .fatal ("Command " ++ command ++ " not allowed \n") s
        ∧ command.data <:+: ("Command " ++ command ++ " not allowed \n").data
        ∧ (newEvents s (dispatch env command file id s)).filter Event.isOperation = [])
    ∧ (dispatch env "fileGet" file id s = fileGet env file id s
        ∧ (newEvents s (dispatch env "fileGet" file id s)).filter Event.isOperation
            = [.fileGet file id])
    ∧ (dispatch env "fileUpdate" file id s = fileUpdateCloud env file id s
        ∧ (newEvents s (dispatch env "fileUpdate" file id s)).filter Event.isOperation
            = [.fileUpdateCloud file id])
    ∧ (dispatch env "fileCreate" file id s = fileCreateCloud env file s
        ∧ (newEvents s (dispatch env "fileCreate" file id s)).filter Event.isOperation
            = [.fileCreateCloud file])
    ∧ (dispatch env "fileList" file id s = filesList env s
        ∧ (newEvents s (dispatch env "fileList" file id s)).filter Event.isOperation
            = [.filesList]) := by
  refine ⟨?_, ?_, ?_, ?_, ?_⟩
  · intro h1 h2 h3 h4
    have hd : dispatch env command file id s
        = .fatal ("Command " ++ command ++ " not allowed \n") s := by
      simp [dispatch, h1, h2, h3, h4, logFatalf]
    refine ⟨hd, ?_, ?_⟩
    · exact ⟨"Command ".data, " not allowed \n".data, by simp [String.data_append]⟩
    · rw [hd]; simp [newEvents, Outcome.state]
  · have hd : dispatch env "fileGet" file id s = fileGet env file id s := by
      simp [dispatch]
    exact ⟨hd, by rw [hd]; exact fileGet_operations env file id s⟩
  · have hd : dispatch env "fileUpdate" file id s = fileUpdateCloud env file id s := by
      simp [dispatch]
    exact ⟨hd, by rw [hd]; exact fileUpdateCloud_operations env file id s⟩
  · have hd : dispatch env "fileCreate" file id s = fileCreateCloud env file s := by
      simp [dispatch]
    exact ⟨hd, by rw [hd]; exact fileCreateCloud_operations env file s⟩
  · have hd : dispatch env "fileList" file id s = filesList env s := by
      simp [dispatch]
    exact ⟨hd, by rw [hd]; exact filesList_operations env s⟩

/-- Witness for claim C6: an unknown command, the empty command and a
differently cased spelling. -/
theorem dispatch_runs_only_the_named_operation_witness :
    ("fileDelete" ≠ "fileGet" ∧ "fileDelete" ≠ "fileUpdate" ∧ "fileDelete" ≠ "fileCreate"
      ∧ "fileDelete" ≠ "fileList")
    ∧ dispatch sampleEnv "fileDelete" "report.csv" "" laterRun
        = .fatal "Command fileDelete not allowed \n" laterRun
    ∧ (newEvents laterRun (dispatch sampleEnv "fileDelete" "report.csv" "" laterRun)).filter
        Event.isOperation = []
    ∧ dispatch sampleEnv "" "report.csv" "" laterRun
        = .fatal "Command  not allowed \n" laterRun
    ∧ dispatch sampleEnv "filelist" "" "" laterRun
        = .fatal "Command filelist not allowed \n" laterRun :=
  have h := (dispatch_runs_only_the_named_operation sampleEnv "fileDelete" "report.csv" ""
    laterRun).1 (by decide) (by decide) (by decide) (by decide)
  ⟨⟨by decide, by decide, by decide, by decide⟩, h.1, h.2.2,
    ((dispatch_runs_only_the_named_operation sampleEnv "" "report.csv" "" laterRun).1
      (by decide) (by decide) (by decide) (by decide)).1,
    ((dispatch_runs_only_the_named_operation sampleEnv "filelist" "" "" laterRun).1
      (by decide) (by decide) (by decide) (by decide)).1⟩

/-- Claim C7 fails on the code.  For every argument list whose last token is
`-id`, `-f` or `-c`, the scan evaluates `params[inx+1]` past the end of the
list: it panics with index out of range, and `main` ends by that panic without
reaching the dispatcher or any diagnostic. -/
theorem main_panics_when_last_is_flag (env : Env) (xs : List String) (f : String)
    (s : State) (hflag : f = "-id" ∨ f = "-f" ∨ f = "-c") :
    scanArgs (xs ++ [f]) = .error (.indexOutOfRange (xs.length + 1) (xs.length + 1))
    ∧ main env (xs ++ [f]) s = .panic (.indexOutOfRange (xs.length + 1) (xs.length + 1)) s := by
  have h : scanArgs (xs ++ [f])
      = .error (.indexOutOfRange (xs.length + 1) (xs.length + 1)) := by
    rw [scanArgs_eq_scanList, scanList_flag_last xs f _ _ hflag]
    simp
  exact ⟨h, by simp only [main, h]⟩

/-- Witness for claim C7: the program run as `prog -c`. -/
theorem main_panics_when_last_is_flag_witness :
    ("-c" = "-id" ∨ "-c" = "-f" ∨ "-c" = "-c")
    ∧ scanArgs ["-c"] = .error (.indexOutOfRange 1 1)
    ∧ main sampleEnv ["-c"] laterRun = .panic (.indexOutOfRange 1 1) laterRun :=
  ⟨Or.inr (Or.inr rfl),
    main_panics_when_last_is_flag sampleEnv [] "-c" laterRun (Or.inr (Or.inr rfl))⟩

/-- Claim C8.  For every argument list `xs ++ ys` and every token `t` other
than `-c`, `-f` and `-id`, inserting `t` between `xs` and `ys`, where `xs` is
empty or ends with a token other than `-c`, `-f` and `-id`, leaves the outcome
of the scan unchanged: the same `(command, file, id)` triple is produced, or
no triple in both cases. -/
theorem scanArgs_ignores_unknown_flag (xs ys : List String) (t : String)
    (hc : t ≠ "-c") (hf : t ≠ "-f") (hid : t ≠ "-id")
    (hpos : ∀ x, xs.getLast? = some x → x ≠ "-c" ∧ x ≠ "-f" ∧ x ≠ "-id") :
    (scanArgs (xs ++ t :: ys)).toOption = (scanArgs (xs ++ ys)).toOption := by
  rw [scanArgs_eq_scanList, scanArgs_eq_scanList]
  apply scanList_insert xs ys t _ _ _ hid hf hc
  intro x hx
  obtain ⟨h1, h2, h3⟩ := hpos x hx
  exact ⟨h3, h2, h1⟩

/-- Witness for claim C8: `-v` inserted after the command name. -/
theorem scanArgs_ignores_unknown_flag_witness :
    ("-v" ≠ "-c" ∧ "-v" ≠ "-f" ∧ "-v" ≠ "-id")
    ∧ ["-c", "fileGet"].getLast? = some "fileGet"
    ∧ (scanArgs (["-c", "fileGet"] ++ "-v" :: ["-f", "report.csv", "-id", "1a2B3c"])).toOption
        = (scanArgs (["-c", "fileGet"] ++ ["-f", "report.csv", "-id", "1a2B3c"])).toOption
    ∧ (scanArgs (["-c", "fileGet"] ++ ["-f", "report.csv", "-id", "1a2B3c"])).toOption
        = some { command := "fileGet", file := "report.csv", id := "1a2B3c" } :=
  have hpos : ∀ x, ["-c", "fileGet"].getLast? = some x → x ≠ "-c" ∧ x ≠ "-f" ∧ x ≠ "-id" := by
    intro x hx
    have : x = "fileGet" := by simpa using hx.symm
    subst this
    decide
  ⟨by decide, by rfl,
    scanArgs_ignores_unknown_flag ["-c", "fileGet"] ["-f", "report.csv", "-id", "1a2B3c"] "-v"
      (by decide) (by decide) (by decide) hpos,
    by rfl⟩

/-- Claim C9, amended.  For every non-empty local path whose file can be
opened, with readable secrets, a cached token and a successful remote
response `res`, `fileCreateCloud` returns, issues exactly one create call,
whose metadata name is `Base` of the local path (`report.csv` for `report.csv`
and for `dir/report.csv`), and prints exactly one text, the line
`<res.Name>, <res.Id>, <res.MimeType>` made of the fields of the response; its
first field is the file name when the response carries the name it was
sent. -/
theorem fileCreateCloud_prints_response (env : Env) (s : State) (fileName b media : String)
    (config : Config) (tok : Token) (res : DriveFile)
    (hname : fileName ≠ "")
    (hsecret : s.files.lookup (googleSecretPath ++ "credentials.json") = some b)
    (hconf : env.configFromJSON b = .ok config)
    (htok : (tokenFromFile env tokFile s).value = some (.ok tok))
    (hnew : env.driveNewErr { config := config, token := tok } = none)
    (hfile : s.files.lookup fileName = some media)
    (hcreate : env.create { client := { config := config, token := tok } }
      { Name := Base fileName, Id := "", MimeType := "" } media = .ok res) :
    (fileCreateCloud env fileName s).returned = true
    ∧ (newEvents s (fileCreateCloud env fileName s)).filter Event.isRemoteCreate
        = [.remoteCreate { Name := Base fileName, Id := "", MimeType := "" }]
    ∧ printed (newEvents s (fileCreateCloud env fileName s))
        = [res.Name ++ ", " ++ res.Id ++ ", " ++ res.MimeType ++ "\n"]
    ∧ (res.Name = Base fileName →
        printed (newEvents s (fileCreateCloud env fileName s))
          = [Base fileName ++ ", " ++ res.Id ++ ", " ++ res.MimeType ++ "\n"])
    ∧ Base "report.csv" = "report.csv" ∧ Base "dir/report.csv" = "report.csv" := by
  have hinit := initCloud_cached env { s with trace := s.trace ++ [.fileCreateCloud fileName] }
    b config tok hsecret hconf (by rw [tokenFromFile_value] at htok ⊢; exact htok) hnew
  have hrun : fileCreateCloud env fileName s = .ok ()
      { s with trace := s.trace ++ [.fileCreateCloud fileName, .initCloud,
          .readFile (googleSecretPath ++ "credentials.json"), .getClient,
          .tokenFromFile tokFile, .osOpen tokFile, .newClient tok, .osOpen fileName,
          .remoteCreate { Name := Base fileName, Id := "", MimeType := "" },
          .stdout (res.Name ++ ", " ++ res.Id ++ ", " ++ res.MimeType ++ "\n")] } := by
    simp only [fileCreateCloud, bind_apply, Proc.bind, emit, printf,
      mt (len_lt_one_iff fileName).mp hname, if_false, hinit, osOpen, hfile, hcreate]
    simp
  have hev : newEvents s (fileCreateCloud env fileName s) =
      [.fileCreateCloud fileName, .initCloud,
          .readFile (googleSecretPath ++ "credentials.json"), .getClient,
          .tokenFromFile tokFile, .osOpen tokFile, .newClient tok, .osOpen fileName,
          .remoteCreate { Name := Base fileName, Id := "", MimeType := "" },
          .stdout (res.Name ++ ", " ++ res.Id ++ ", " ++ res.MimeType ++ "\n")] := by
    apply newEvents_of_trace; rw [hrun]; rfl
  refine ⟨by rw [hrun]; rfl, by rw [hev]; rfl, by rw [hev]; rfl, ?_, by decide, by decide⟩
  intro hecho
  rw [hev, hecho]; rfl

/-- Witness for claim C9: `dir/report.csv` uploaded to a remote that echoes the
name. -/
theorem fileCreateCloud_prints_response_witness :
    ("dir/report.csv" ≠ ""
      ∧ laterRun.files.lookup (googleSecretPath ++ "credentials.json") = some "credentials"
      ∧ sampleEnv.configFromJSON "credentials" = .ok sampleConfig
      ∧ (tokenFromFile sampleEnv tokFile laterRun).value = some (.ok staleToken)
      ∧ sampleEnv.driveNewErr { config := sampleConfig, token := staleToken } = none
      ∧ laterRun.files.lookup "dir/report.csv" = some "a,b\n3,4\n"
      ∧ sampleEnv.create { client := { config := sampleConfig, token := staleToken } }
          { Name := Base "dir/report.csv", Id := "", MimeType := "" } "a,b\n3,4\n"
          = .ok { Name := "report.csv", Id := "1a2B3c", MimeType := "text/csv" })
    ∧ (fileCreateCloud sampleEnv "dir/report.csv" laterRun).returned = true
    ∧ (newEvents laterRun (fileCreateCloud sampleEnv "dir/report.csv" laterRun)).filter
        Event.isRemoteCreate
        = [.remoteCreate { Name := Base "dir/report.csv", Id := "", MimeType := "" }]
    ∧ printed (newEvents laterRun (fileCreateCloud sampleEnv "dir/report.csv" laterRun))
        = ["report.csv" ++ ", " ++ "1a2B3c" ++ ", " ++ "text/csv" ++ "\n"] :=
  have h := fileCreateCloud_prints_response sampleEnv laterRun "dir/report.csv" "credentials"
    "a,b\n3,4\n" sampleConfig staleToken
    { Name := "report.csv", Id := "1a2B3c", MimeType := "text/csv" }
    (by decide) (by rfl) (by rfl) (by rfl) (by rfl) (by rfl) (by rfl)
  ⟨⟨by decide, by rfl, by rfl, by rfl, by rfl, by rfl, by rfl⟩, h.1, h.2.1, h.2.2.1⟩

/-- Counterexample to claim C9 as stated: the remote answers the create call
for `report.csv` with another name, and the first field of the printed line is
the name of the response, not the file name. -/
theorem fileCreateCloud_first_field_is_response_name :
    laterRun.files.lookup "report.csv" = some "a,b\n1,2\n"
    ∧ (tokenFromFile renamingEnv tokFile laterRun).value = some (.ok staleToken)
    ∧ (fileCreateCloud renamingEnv "report.csv" laterRun).returned = true
    ∧ (newEvents laterRun (fileCreateCloud renamingEnv "report.csv" laterRun)).filter
        Event.isRemoteCreate = [.remoteCreate { Name := "report.csv", Id := "", MimeType := "" }]
    ∧ printed (newEvents laterRun (fileCreateCloud renamingEnv "report.csv" laterRun))
        = ["report (1).csv, 1a2B3c, text/csv\n"]
    ∧ printed (newEvents laterRun (fileCreateCloud renamingEnv "report.csv" laterRun))
        ≠ ["report.csv, 1a2B3c, text/csv\n"] := by
  refine ⟨by rfl, by rfl, by rfl, by decide, by decide, by decide⟩

/-- Claim C10, amended.  After a successful `initCloud` and a successful list
response, `filesList` returns normally and the texts it prints are, in order:
what `initCloud` printed (nothing when the token is read from the cache; the
consent prompt and the line of `saveToken` when the cache read fails), the
header `Files:`, and then the message `No files found.` when the response
holds zero files, or one line per file, in the order of the response, carrying
that file's name and id; in the latter case the message is not printed. -/
theorem filesList_prints_header_then_files (env : Env) (s s1 : State) (srv : Service)
    (files : List DriveFile)
    (hinit : initCloud env { s with trace := s.trace ++ [.filesList] } = .ok srv s1)
    (hlist : env.list srv = .ok files) :
    (filesList env s).returned = true
    ∧ printed (newEvents s (filesList env s))
        = printed (newEvents s (initCloud env { s with trace := s.trace ++ [.filesList] }))
          ++ "Files:\n" :: (if files = [] then ["No files found.\n"] else files.map fileLine)
    ∧ (files ≠ [] → "No files found.\n" ∉ printed (newEvents s (filesList env s)))
    ∧ (∀ tok, (tokenFromFile env tokFile s).value = some (.ok tok) →
        printed (newEvents s (initCloud env { s with trace := s.trace ++ [.filesList] })) = [])
    ∧ ((s.files.lookup tokFile = none ∨
        ∃ content e, s.files.lookup tokFile = some content
          ∧ env.decodeToken content = .error e) →
        printed (newEvents s (initCloud env { s with trace := s.trace ++ [.filesList] }))
          = ["Go to the following link in your browser then type the " ++
              "authorization code: \n" ++ env.authCodeURL srv.client.config ++ "\n",
             "Saving credential file to: " ++ tokFile ++ "\n"]) := by
  obtain ⟨evs, hevs, hno⟩ := initCloud_emits_no_message env
    { s with trace := s.trace ++ [.filesList] }
  have hI0 : newEvents { s with trace := s.trace ++ [.filesList] }
      (initCloud env { s with trace := s.trace ++ [.filesList] }) = evs :=
    newEvents_of_trace _ _ _ hevs
  have hI : newEvents s (initCloud env { s with trace := s.trace ++ [.filesList] })
      = .filesList :: evs :=
    newEvents_of_trace s _ _ (by rw [hevs]; simp)
  have hP : printed (newEvents s (initCloud env { s with trace := s.trace ++ [.filesList] }))
      = printed (newEvents { s with trace := s.trace ++ [.filesList] }
          (initCloud env { s with trace := s.trace ++ [.filesList] })) := by
    rw [hI, hI0]; rfl
  have hs1 : s1.trace = s.trace ++ .filesList :: evs := by
    rw [hinit] at hevs
    simpa [Outcome.state] using hevs
  have hrun : filesList env s = .ok ()
      { s1 with trace := s1.trace ++ .remoteList :: .stdout "Files:\n" ::
          (if files = [] then [.stdout "No files found.\n"]
            else files.map (fun i => Event.stdout (fileLine i))) } := by
    simp only [filesList, bind_apply, Proc.bind, emit, printf, hinit, hlist]
    cases files with
    | nil => simp [emit]
    | cons i rest => simp [printFiles_eq]
  have hev : newEvents s (filesList env s) = (.filesList :: evs) ++ (.remoteList ::
      .stdout "Files:\n" :: (if files = [] then [.stdout "No files found.\n"]
            else files.map (fun i => Event.stdout (fileLine i)))) := by
    apply newEvents_of_trace; rw [hrun]
    simp [Outcome.state, hs1]
  have htail : printed (.remoteList :: .stdout "Files:\n" ::
      (if files = [] then [.stdout "No files found.\n"]
            else files.map (fun i => Event.stdout (fileLine i))))
      = "Files:\n" :: (if files = [] then ["No files found.\n"] else files.map fileLine) := by
    by_cases h0 : files = []
    · simp [h0, printed]
    · have : files.map (fun i => Event.stdout (fileLine i))
          = (files.map fileLine).map Event.stdout := by simp
      simp only [printed, if_neg h0, this, printed_map_stdout]
  have hprint : printed (newEvents s (filesList env s))
      = printed (newEvents s (initCloud env { s with trace := s.trace ++ [.filesList] }))
        ++ "Files:\n" :: (if files = [] then ["No files found.\n"] else files.map fileLine) := by
    rw [hev, printed_append, htail, hI]
  refine ⟨by rw [hrun]; rfl, hprint, ?_, ?_, ?_⟩
  · intro h0 hmem
    rw [hprint, if_neg h0, hI] at hmem
    rcases List.mem_append.mp hmem with h | h
    · have h2 : Event.stdout "No files found.\n" ∈ evs := by
        have := stdout_mem_of_mem_printed _ _ h
        simpa using this
      exact hno _ h2 rfl
    · rcases List.mem_cons.mp h with h | h
      · exact absurd h (by decide)
      · obtain ⟨i, _, hi⟩ := List.mem_map.mp h
        exact fileLine_ne_message i hi
  · intro tok htok
    rw [hP]
    exact initCloud_prints_nothing_cached env _ tok
      (by rw [tokenFromFile_value] at htok ⊢; exact htok)
  · intro hmiss
    rw [hP]
    exact initCloud_printed_of_miss env _ s1 srv hmiss hinit

/-- Witness for claim C10: a remote with two files, the token read from the
cache. -/
theorem filesList_prints_header_then_files_witness :
    (initCloud twoFilesEnv { laterRun with trace := laterRun.trace ++ [.filesList] }
        = .ok { client := { config := sampleConfig, token := staleToken } }
            { laterRun with trace := [.filesList, .initCloud,
                .readFile "../gsecret/credentials.json", .getClient,
                .tokenFromFile tokFile, .osOpen tokFile, .newClient staleToken] }
      ∧ twoFilesEnv.list { client := { config := sampleConfig, token := staleToken } }
          = .ok [{ Name := "report.csv", Id := "1a2B3c", MimeType := "text/csv" },
              { Name := "notes.txt", Id := "4d5E6f", MimeType := "text/plain" }])
    ∧ (filesList twoFilesEnv laterRun).returned = true
    ∧ printed (newEvents laterRun (filesList twoFilesEnv laterRun))
        = ["Files:\n", "  name -> report.csv id -> 1a2B3c \n",
            "  name -> notes.txt id -> 4d5E6f \n"]
    ∧ "No files found.\n" ∉ printed (newEvents laterRun (filesList twoFilesEnv laterRun)) :=
  have h := filesList_prints_header_then_files twoFilesEnv laterRun
    { laterRun with trace := [.filesList, .initCloud,
        .readFile "../gsecret/credentials.json", .getClient,
        .tokenFromFile tokFile, .osOpen tokFile, .newClient staleToken] }
    { client := { config := sampleConfig, token := staleToken } }
    [{ Name := "report.csv", Id := "1a2B3c", MimeType := "text/csv" },
      { Name := "notes.txt", Id := "4d5E6f", MimeType := "text/plain" }]
    (by rfl) (by rfl)
  ⟨⟨by rfl, by rfl⟩, h.1, h.2.1, h.2.2.1 (by simp)⟩

/-- Counterexample to claim C10 as stated: with zero files and a cached token
the printed text is the header `Files:` followed by the message, not the
message alone; on a first run the consent prompt and the line of `saveToken`
come before them. -/
theorem filesList_prints_header_before_message :
    sampleEnv.list { client := { config := sampleConfig, token := staleToken } } = .ok []
    ∧ (filesList sampleEnv laterRun).returned = true
    ∧ printed (newEvents laterRun (filesList sampleEnv laterRun))
        = ["Files:\n", "No files found.\n"]
    ∧ printed (newEvents laterRun (filesList sampleEnv laterRun)) ≠ ["No files found.\n"]
    ∧ sampleEnv.list { client := { config := sampleConfig, token := freshToken } } = .ok []
    ∧ (filesList sampleEnv firstRun).returned = true
    ∧ printed (newEvents firstRun (filesList sampleEnv firstRun))
        = ["Go to the following link in your browser then type the authorization code: \n" ++
            "https://accounts.google.com/o/oauth2/auth?access_type=offline&state=state-token\n",
           "Saving credential file to: ../gsecret/token.json\n",
           "Files:\n", "No files found.\n"] := by
  refine ⟨by rfl, by rfl, by decide, by decide, by rfl, by rfl, by rfl⟩

end GDrive
